import Mathlib

/-!
# libp2p-examples: heartbeat, payment and sync protocols

A shallow embedding of `basicNode.go`, `heartbeatProtocol.go`,
`paymentProtocol.go` and `syncProtocol.go`.  Go values are modelled as follows.

* A Go `string` / `[]byte` is a list of bytes (`GoString`).
* A `net.Stream` is a record holding the bytes the remote side delivers, how
  the inbound side ends, whether local writes fail, the bytes accepted so far
  and the list of calls that were made on it.
* Functions that mutate a stream, a buffered writer or the node take the old
  state and return the new one.
* A Go `panic` is the `Outcome.panicked` result.
* Functions of the libp2p / multiformats libraries (multiaddr parsing, peer ID
  printing, the JSON and CBOR multicodecs) and of the archiver library are
  parameters, collected in `Lib`, `RecordCodec`, `BlobCodec`, `Archiver` and
  `Net`.
* The working directory is a list of paths with what they hold (`Disk`).
-/

namespace P2P

/-! ## Basic values -/

abbrev Byte := UInt8

/-- Go `string` and `[]byte`: a sequence of bytes. -/
abbrev GoString := List Byte

/-- The bytes of a string literal of the source (UTF-8). -/
def lit (s : String) : GoString := s.toList.flatMap String.utf8EncodeChar

/-- Go `error` values (non-nil), identified by their message. -/
structure Error where
  msg : String
deriving DecidableEq, Repr

/-- The error `io.EOF`. -/
def io_EOF : Error := ⟨"EOF"⟩

/-- The error `io.ErrShortWrite`. -/
def io_ErrShortWrite : Error := ⟨"short write"⟩

/-- The run-time error of indexing an empty slice. -/
def indexOutOfRange : Error := ⟨"runtime error: index out of range"⟩

/-- The run-time error of calling a method through a nil interface. -/
def nilDereference : Error := ⟨"runtime error: invalid memory address or nil pointer dereference"⟩

/-- How a Go function call ends: it returns, or it panics. -/
inductive Outcome (α : Type) where
  | returned (a : α)
  | panicked (e : Error)
deriving DecidableEq, Repr

/-- The type `peer.ID` (a Go string holding a multihash); its zero value is the empty string. -/
structure PeerID where
  raw : GoString
deriving DecidableEq, Repr

/-- A parsed `multiaddr.Multiaddr`, identified by its canonical text (`String()`). -/
structure Multiaddr where
  text : GoString
deriving DecidableEq, Repr

/-- A Go `float64`, identified by its IEEE-754 bit pattern. -/
structure Float64 where
  bits : Nat
deriving DecidableEq, Repr

/-- The constant `multiaddr.P_IPFS`. -/
def P_IPFS : Nat := 421

/-- Time-to-live values of peerstore entries. -/
inductive AddrTTL where
  | PermanentAddrTTL
  | duration (ns : Nat)
deriving DecidableEq, Repr

/-- One `AddAddr` entry of a peerstore. -/
structure PeerstoreEntry where
  peer : PeerID
  addr : Multiaddr
  ttl : AddrTTL
deriving DecidableEq, Repr

/-- Library functions of go-multiaddr and go-libp2p-peer used by the source. -/
structure Lib where
  /-- The function `multiaddr.NewMultiaddr`. -/
  NewMultiaddr : GoString → Except Error Multiaddr
  /-- The method `Multiaddr.ValueForProtocol`. -/
  ValueForProtocol : Multiaddr → Nat → Except Error GoString
  /-- The method `Multiaddr.Decapsulate`. -/
  Decapsulate : Multiaddr → Multiaddr → Multiaddr
  /-- The function `peer.IDB58Decode`. -/
  IDB58Decode : GoString → Except Error PeerID
  /-- The method `peer.ID.Pretty`. -/
  Pretty : PeerID → GoString
  /-- The method `peer.ID.String`, which `%s` formatting of a `peer.ID` uses. -/
  String : PeerID → GoString

/-! ## Streams -/

/-- The protocol identifier of `heartbeatProtocol.go`. -/
def heartbeatprotocol : String := "/heartbeat/1.0.0"

/-- The protocol identifier `paymentProtocol` of `paymentProtocol.go`. -/
def paymentProtocol : String := "/payment/1.0.0"

/-- The protocol identifier `pingProtocol` of `paymentProtocol.go`. -/
def pingProtocol : String := "/ping/1.0.0"

/-- A call made on a `net.Stream`. -/
inductive StreamOp where
  | write (p : List Byte)
  | read
  | close
  | reset
deriving DecidableEq, Repr

/-- What the remote side of a freshly opened stream will do: the bytes it
delivers, how the inbound direction ends after them (`none` is a clean
end-of-stream, `some e` a read error), and whether local writes fail. -/
structure Remote where
  inbound : List Byte
  endErr : Option Error
  writeErr : Option Error
deriving DecidableEq, Repr

/-- A `net.Stream` as seen by the local side. -/
structure Stream where
  protocol : String
  localPeer : PeerID
  remotePeer : PeerID
  /-- Bytes from the remote side that have not been read yet. -/
  inbound : List Byte
  endErr : Option Error
  writeErr : Option Error
  /-- Bytes accepted by `Write`, in order. -/
  sent : List Byte
  /-- The calls made on the stream, oldest first. -/
  log : List StreamOp
deriving DecidableEq, Repr

/-- The outcome of `NewStream` for each peer and protocol. -/
structure Net where
  dial : PeerID → String → Except Error Remote

/-- The method `stream.Write(p)`: all of `p` is accepted, or the write fails. -/
def Stream.Write (s : Stream) (p : List Byte) : Stream × Nat × Option Error :=
  match s.writeErr with
  | some e => ({ s with log := s.log ++ [StreamOp.write p] }, 0, some e)
  | none => ({ s with sent := s.sent ++ p, log := s.log ++ [StreamOp.write p] }, p.length, none)

/-- The method `stream.Close()`. -/
def Stream.Close (s : Stream) : Stream :=
  { s with log := s.log ++ [StreamOp.close] }

/-- The method `stream.Reset()`. -/
def Stream.Reset (s : Stream) : Stream :=
  { s with log := s.log ++ [StreamOp.reset] }

/-- The function `ioutil.ReadAll(stream)`: everything up to the end of the
stream; the error is nil when the stream ends cleanly. -/
def ioutil_ReadAll (s : Stream) : Stream × List Byte × Option Error :=
  ({ s with inbound := [], log := s.log ++ [StreamOp.read] }, s.inbound, s.endErr)

/-- The payloads of the `Write` calls in a log, oldest first. -/
def writes : List StreamOp → List (List Byte)
  | [] => []
  | StreamOp.write p :: ops => p :: writes ops
  | _ :: ops => writes ops

/-! ## bufio -/

/-- Splits a byte sequence after the first occurrence of `delim`. -/
def splitAfter (delim : Byte) : List Byte → Option (List Byte × List Byte)
  | [] => none
  | b :: bs =>
    if b = delim then some ([b], bs)
    else match splitAfter delim bs with
      | some (line, rest) => some (b :: line, rest)
      | none => none

/-- A `bufio.Reader` over a stream; its unread data is the unread data of the stream. -/
structure Reader where
  stream : Stream
deriving DecidableEq, Repr

/-- The function `bufio.NewReader`. -/
def bufio_NewReader (s : Stream) : Reader := ⟨s⟩

/-- The method `ReadString(delim)` of `bufio.Reader`: the data up to and
including the first `delim`; when the input ends before a `delim`, the data
read so far and the error that ended the input (`io.EOF` for a clean end). -/
def Reader.ReadString (r : Reader) (delim : Byte) : Reader × GoString × Option Error :=
  match splitAfter delim r.stream.inbound with
  | some (line, rest) =>
    (⟨{ r.stream with inbound := rest, log := r.stream.log ++ [StreamOp.read] }⟩, line, none)
  | none =>
    (⟨{ r.stream with inbound := [], log := r.stream.log ++ [StreamOp.read] }⟩,
      r.stream.inbound, some (r.stream.endErr.getD io_EOF))

/-- The default buffer size of `bufio.NewWriter`. -/
def bufio_defaultBufSize : Nat := 4096

/-- The state of a `bufio.Writer` (apart from the stream below it): the
buffered bytes `buf[0:n]` and the sticky error. -/
structure Writer where
  buf : List Byte
  err : Option Error
deriving DecidableEq, Repr

/-- The function `bufio.NewWriter`. -/
def bufio_NewWriter : Writer := { buf := [], err := none }

/-- The method `Available` of `bufio.Writer`. -/
def Writer.Available (w : Writer) : Nat := bufio_defaultBufSize - w.buf.length

/-- The method `Buffered` of `bufio.Writer`. -/
def Writer.Buffered (w : Writer) : Nat := w.buf.length

/-- The method `Flush` of `bufio.Writer`. -/
def Writer.Flush (w : Writer) (s : Stream) : Writer × Stream × Option Error :=
  match w.err with
  | some e => (w, s, some e)
  | none =>
    if w.buf.length = 0 then (w, s, none)
    else
      match s.Write w.buf with
      | (s1, n, werr) =>
        let err := if n < w.buf.length ∧ werr = none then some io_ErrShortWrite else werr
        match err with
        | some e => ({ buf := w.buf.drop n, err := some e }, s1, some e)
        | none => ({ buf := [], err := none }, s1, none)

/-- The loop of `bufio.Writer.Write`: while the data does not fit in the
buffer and no error occurred, either write it straight to the stream (empty
buffer) or fill the buffer and flush it.  Returns the writer, the stream, the
data still to be copied and the number of bytes taken so far. -/
def Writer.writeLoop : Nat → Writer → Stream → List Byte → Nat → Writer × Stream × List Byte × Nat
  | 0, w, s, p, nn => (w, s, p, nn)
  | fuel + 1, w, s, p, nn =>
    if p.length > w.Available ∧ w.err = none then
      if w.Buffered = 0 then
        match s.Write p with
        | (s1, n, werr) => Writer.writeLoop fuel { w with err := werr } s1 (p.drop n) (nn + n)
      else
        let n := min w.Available p.length
        match (Writer.Flush { w with buf := w.buf ++ p.take n } s) with
        | (w1, s1, _) => Writer.writeLoop fuel w1 s1 (p.drop n) (nn + n)
    else (w, s, p, nn)

/-- The method `Write` of `bufio.Writer`. -/
def Writer.Write (w : Writer) (s : Stream) (p : List Byte) : Writer × Stream × Nat × Option Error :=
  match Writer.writeLoop (p.length + 2) w s p 0 with
  | (w1, s1, p1, nn) =>
    match w1.err with
    | some e => (w1, s1, nn, some e)
    | none => ({ w1 with buf := w1.buf ++ p1 }, s1, nn + p1.length, none)

/-! ## The node -/

/-- The four stream handlers of the source, each the anonymous function that
one of the `...ProtocolMultiplexer` methods passes to `SetStreamHandler`. -/
inductive Handler where
  | heartbeat
  | ping
  | payment
  | sync
deriving DecidableEq, Repr

/-- A `PeerNode`: the host's identity, listen addresses, address book and the
handlers bound to protocol identifiers (newest binding first). -/
structure PeerNode where
  id : PeerID
  addrs : List Multiaddr
  peerstore : List PeerstoreEntry
  handlers : List (String × Handler) := []
deriving DecidableEq, Repr

/-- The method `node.NewStream(ctx, peerID, protocol)`. -/
def PeerNode.NewStream (net : Net) (node : PeerNode) (peerID : PeerID) (protocol : String) :
    Except Error Stream :=
  match net.dial peerID protocol with
  | .error err => .error err
  | .ok r => .ok
      { protocol := protocol, localPeer := node.id, remotePeer := peerID,
        inbound := r.inbound, endErr := r.endErr, writeErr := r.writeErr,
        sent := [], log := [] }

/-- The function `addAddressToPeerstore` of `basicNode.go`. -/
def addAddressToPeerstore (lib : Lib) (node : PeerNode) (address : GoString) :
    PeerNode × Outcome (PeerID × Option Error) :=
  let result : PeerID := ⟨[]⟩
  match lib.NewMultiaddr address with
  | .error err => (node, .returned (result, some err))
  | .ok ipfsAddress =>
    match lib.ValueForProtocol ipfsAddress P_IPFS with
    | .error err => (node, .returned (result, some err))
    | .ok peerIDString =>
      let targetPeerAddress := (lib.NewMultiaddr (lit "/ipfs/" ++ peerIDString)).toOption
      match lib.IDB58Decode peerIDString with
      | .error err => (node, .returned (result, some err))
      | .ok decodedPeerID =>
        let result := decodedPeerID
        match targetPeerAddress with
        | none => (node, .panicked nilDereference)
        | some target =>
          let targetAddress := lib.Decapsulate ipfsAddress target
          ({ node with peerstore := node.peerstore ++
              [{ peer := decodedPeerID, addr := targetAddress, ttl := AddrTTL.PermanentAddrTTL }] },
            .returned (result, none))

/-! ## Heartbeat protocol -/

/-- What a call of an initiator function leaves behind. -/
structure HeartbeatRun where
  node : PeerNode
  /-- The `NewStream` calls made, oldest first. -/
  opened : List (PeerID × String)
  stream : Option Stream
  stdout : List GoString
  result : Outcome Unit
deriving DecidableEq, Repr

/-- The method `Heartbeat` of `heartbeatProtocol.go`. -/
def PeerNode.Heartbeat (lib : Lib) (net : Net) (node : PeerNode) (destination : GoString) :
    HeartbeatRun :=
  match addAddressToPeerstore lib node destination with
  | (node1, .panicked e) =>
    { node := node1, opened := [], stream := none, stdout := [], result := .panicked e }
  | (node1, .returned (_, some err)) =>
    { node := node1, opened := [], stream := none, stdout := [], result := .panicked err }
  | (node1, .returned (peerID, none)) =>
    match node1.NewStream net peerID heartbeatprotocol with
    | .error err =>
      { node := node1, opened := [(peerID, heartbeatprotocol)], stream := none, stdout := [],
        result := .panicked err }
    | .ok stream =>
      let sender := stream.localPeer
      let message := lit " " ++ lib.String sender ++ lit " is checking availablity\n"
      match stream.Write message with
      | (stream1, _, some err) =>
        { node := node1, opened := [(peerID, heartbeatprotocol)], stream := some stream1,
          stdout := [], result := .panicked err }
      | (stream1, _, none) =>
        match ioutil_ReadAll stream1 with
        | (stream2, _, some err) =>
          { node := node1, opened := [(peerID, heartbeatprotocol)], stream := some stream2,
            stdout := [], result := .panicked err }
        | (stream2, requestReceiver, none) =>
          { node := node1, opened := [(peerID, heartbeatprotocol)], stream := some stream2,
            stdout := [lib.String peerID ++ lit " Reply: " ++ requestReceiver ++ lit "\n"],
            result := .returned () }

/-- What a stream handler leaves behind. -/
structure HandlerRun where
  stream : Stream
  stdout : List GoString
  result : Outcome Unit
deriving DecidableEq, Repr

/-- The handler that `HeartbeatProtocolMultiplexer` registers for `heartbeatprotocol`. -/
def heartbeatHandler (lib : Lib) (stream : Stream) : HandlerRun :=
  let out0 := [lit "Request Receiver : New connection intiated\n"]
  let buf := bufio_NewReader stream
  match buf.ReadString 10 with
  | (buf1, _, some err) =>
    { stream := buf1.stream.Reset, stdout := out0 ++ [lit err.msg ++ lit "\n"],
      result := .returned () }
  | (buf1, str, none) =>
    let out1 := out0 ++
      [lit "**********************************************************\n",
       lit "Recieved Message: " ++ str ++ lit "\n",
       lit "**********************************************************\n"]
    let receiver := buf1.stream.localPeer
    let message := lib.String receiver ++ lit " recieved the message \t Node Is still online"
    match buf1.stream.Write message with
    | (stream1, _, _) =>
      { stream := stream1.Close, stdout := out1, result := .returned () }

/-! ## Payment protocol -/

/-- The struct `TransactionWrapper`. -/
structure TransactionWrapper where
  Sender : GoString
  Receiver : GoString
  Amount : Float64
deriving DecidableEq, Repr

/-- The codec `json.Multicodec(false)` of go-multicodec, at the type
`TransactionWrapper`.

* `encode tx` is what `Encode(tx)` hands to its writer, as the list of the
  `Write` calls it makes (stopping at the first one that fails), and the error
  it reports when the value itself cannot be encoded.
* `decode inbound endErr` is what `Decode` yields when the unread input is
  `inbound`, ended as `endErr` says, together with the input left unread. -/
structure RecordCodec where
  encode : TransactionWrapper → List (List Byte) × Option Error
  decode : List Byte → Option Error → Except Error TransactionWrapper × List Byte

/-- The struct `TransactionStream`: the stream, and the state of the
`bufio.Writer` around it.  The reader, encoder and decoder have no state of
their own in this model. -/
structure TransactionStream where
  stream : Stream
  writer : Writer
deriving DecidableEq, Repr

/-- The function `WrapTransactionStream`. -/
def WrapTransactionStream (stream : Stream) : TransactionStream :=
  { stream := stream, writer := bufio_NewWriter }

/-- Hands a list of chunks to a `bufio.Writer`, one `Write` each, stopping at the first error. -/
def Writer.writeChunks : List (List Byte) → Writer → Stream → Writer × Stream × Option Error
  | [], w, s => (w, s, none)
  | c :: cs, w, s =>
    match w.Write s c with
    | (w1, s1, _, some e) => (w1, s1, some e)
    | (w1, s1, _, none) => Writer.writeChunks cs w1 s1

/-- The call `encoder.Encode(tx)` on the encoder of a `TransactionStream`. -/
def TransactionStream.Encode (codec : RecordCodec) (ts : TransactionStream)
    (tx : TransactionWrapper) : TransactionStream × Option Error :=
  match Writer.writeChunks (codec.encode tx).1 ts.writer ts.stream with
  | (w1, s1, some e) => ({ stream := s1, writer := w1 }, some e)
  | (w1, s1, none) => ({ stream := s1, writer := w1 }, (codec.encode tx).2)

/-- The call `decoder.Decode(&tx)` on the decoder of a `TransactionStream`. -/
def TransactionStream.Decode (codec : RecordCodec) (ts : TransactionStream) :
    TransactionStream × Except Error TransactionWrapper :=
  match codec.decode ts.stream.inbound ts.stream.endErr with
  | (res, rest) =>
    ({ ts with stream :=
        { ts.stream with inbound := rest, log := ts.stream.log ++ [StreamOp.read] } }, res)

/-- The method `sendTransaction`. -/
def TransactionStream.sendTransaction (codec : RecordCodec) (wrappedTransactionStream : TransactionStream)
    (sender receiver : GoString) (amount : Float64) : TransactionStream × Option Error :=
  let tx : TransactionWrapper := { Sender := sender, Receiver := receiver, Amount := amount }
  match wrappedTransactionStream.Encode codec tx with
  | (ts1, err) =>
    match ts1.writer.Flush ts1.stream with
    | (w2, s2, _) => ({ stream := s2, writer := w2 }, err)

/-- The method `decodeTransaction`. -/
def TransactionStream.decodeTransaction (codec : RecordCodec)
    (wrappedTransactionStream : TransactionStream) :
    TransactionStream × Option TransactionWrapper × Option Error :=
  match wrappedTransactionStream.Decode codec with
  | (ts1, .error err) => (ts1, none, some err)
  | (ts1, .ok tx) => (ts1, some tx, none)

/-- What a call of `Payment` leaves behind. -/
structure PaymentRun where
  node : PeerNode
  /-- The `NewStream` calls made, oldest first. -/
  opened : List (PeerID × String)
  /-- The payment stream, once opened. -/
  stream : Option Stream
  /-- The stream of the ping protocol, once opened. -/
  replyStream : Option Stream
  stdout : List GoString
  result : Outcome Unit
deriving DecidableEq, Repr

/-- The method `Payment` of `paymentProtocol.go`. -/
def PeerNode.Payment (lib : Lib) (codec : RecordCodec) (net : Net) (node : PeerNode)
    (destination : GoString) (amount : Float64) : PaymentRun :=
  match addAddressToPeerstore lib node destination with
  | (node1, .panicked e) =>
    { node := node1, opened := [], stream := none, replyStream := none, stdout := [],
      result := .panicked e }
  | (node1, .returned (_, some err)) =>
    { node := node1, opened := [], stream := none, replyStream := none, stdout := [],
      result := .panicked err }
  | (node1, .returned (peerID, none)) =>
    match node1.NewStream net peerID paymentProtocol with
    | .error err =>
      { node := node1, opened := [(peerID, paymentProtocol)], stream := none,
        replyStream := none, stdout := [], result := .panicked err }
    | .ok stream =>
      let wrappedTransactionStream := WrapTransactionStream stream
      match node1.addrs with
      | [] =>
        { node := node1, opened := [(peerID, paymentProtocol)],
          stream := some wrappedTransactionStream.stream, replyStream := none, stdout := [],
          result := .panicked indexOutOfRange }
      | addr0 :: _ =>
        let sender := addr0.text
        let sender := sender ++ lit "/ipfs/" ++ lib.Pretty node1.id
        match wrappedTransactionStream.sendTransaction codec sender destination amount with
        | (wrapped1, _) =>
          match node1.NewStream net peerID pingProtocol with
          | .error err =>
            { node := node1, opened := [(peerID, paymentProtocol), (peerID, pingProtocol)],
              stream := some wrapped1.stream, replyStream := none, stdout := [],
              result := .panicked err }
          | .ok replyStream =>
            match ioutil_ReadAll replyStream with
            | (replyStream1, _, some err) =>
              { node := node1, opened := [(peerID, paymentProtocol), (peerID, pingProtocol)],
                stream := some wrapped1.stream, replyStream := some replyStream1, stdout := [],
                result := .panicked err }
            | (replyStream1, reply, none) =>
              { node := node1, opened := [(peerID, paymentProtocol), (peerID, pingProtocol)],
                stream := some wrapped1.stream.Close, replyStream := some replyStream1,
                stdout := [reply ++ lit "\n " ++ lib.String node1.id ++ lit " => " ++
                  lib.String peerID ++ lit "\n"],
                result := .returned () }

/-- The handler that `PaymentProtocolMultiplexer` registers for `pingProtocol`. -/
def pingHandler (stream : Stream) : HandlerRun :=
  let message := lit "\nTransaction Successful \t Thank You!\n"
  match stream.Write message with
  | (stream1, _, some err) => { stream := stream1, stdout := [], result := .panicked err }
  | (stream1, _, none) => { stream := stream1.Close, stdout := [], result := .returned () }

/-- The handler that `PaymentProtocolMultiplexer` registers for
`paymentProtocol`.  `fmtF` is the `%f` formatting of a `float64`, which the
handler only prints.  The decoder never returns a nil record with a nil error;
that case is the nil dereference Go would raise at `tx.Amount`. -/
def paymentHandler (codec : RecordCodec) (fmtF : Float64 → GoString) (stream : Stream) :
    HandlerRun :=
  let out0 := [lit "Request Receiver : New connection intiated\n"]
  let wrappedTransactionStream := WrapTransactionStream stream
  match wrappedTransactionStream.decodeTransaction codec with
  | (wrapped1, _, some err) =>
    { stream := wrapped1.stream.Reset, stdout := out0 ++ [lit err.msg ++ lit "\n"],
      result := .returned () }
  | (wrapped1, none, none) =>
    { stream := wrapped1.stream, stdout := out0 ++
        [lit "**********************************************************\n"],
      result := .panicked nilDereference }
  | (wrapped1, some tx, none) =>
    { stream := wrapped1.stream.Close,
      stdout := out0 ++
        [lit "**********************************************************\n",
         lit "Recieved Amount: " ++ fmtF tx.Amount ++ lit "\n",
         lit "**********************************************************\n"],
      result := .returned () }

/-! ## Resolving an address, registering handlers -/

/-- The function `IpfsAddressToPeerID` of `basicNode.go`. -/
def IpfsAddressToPeerID (lib : Lib) (address : GoString) : PeerID × Option Error :=
  let result : PeerID := ⟨[]⟩
  match lib.NewMultiaddr address with
  | .error err => (result, some err)
  | .ok ipfsAddress =>
    match lib.ValueForProtocol ipfsAddress P_IPFS with
    | .error err => (result, some err)
    | .ok peerIDString =>
      match lib.IDB58Decode peerIDString with
      | .error err => (result, some err)
      | .ok decodedPeerID =>
        let result := decodedPeerID
        (result, none)

/-- The protocol identifier of `syncProtocol.go`. -/
def syncProtocol : String := "/sync/1.0.0"

/-- The handler bound to a protocol identifier, if any. -/
def PeerNode.handlerFor (node : PeerNode) (pid : String) : Option Handler :=
  List.lookup pid node.handlers

/-- The method `node.SetStreamHandler(pid, handler)`: the binding of `pid` is
replaced, the others stay. -/
def PeerNode.SetStreamHandler (node : PeerNode) (pid : String) (handler : Handler) : PeerNode :=
  { node with handlers := (pid, handler) :: node.handlers.filter (fun e => e.1 ≠ pid) }

/-- The method `HeartbeatProtocolMultiplexer`: the node after the call and what is printed. -/
def PeerNode.HeartbeatProtocolMultiplexer (node : PeerNode) : PeerNode × List GoString :=
  (node.SetStreamHandler heartbeatprotocol Handler.heartbeat,
    [lit "Heartbeat Protocol 1.0.0 Multiplexd!\n"])

/-- The method `PaymentProtocolMultiplexer`: the node after the call and what is printed. -/
def PeerNode.PaymentProtocolMultiplexer (node : PeerNode) : PeerNode × List GoString :=
  ((node.SetStreamHandler pingProtocol Handler.ping).SetStreamHandler paymentProtocol
      Handler.payment,
    [lit "Payment Protocol 1.0.0 Multiplexd!\n"])

/-- The method `SyncProtocolMultiplexer`: the node after the call and what is printed. -/
def PeerNode.SyncProtocolMultiplexer (node : PeerNode) : PeerNode × List GoString :=
  (node.SetStreamHandler syncProtocol Handler.sync, [lit "Sync Protocol 1.0.0 Multiplexd!\n"])

/-! ## The filesystem

The working directory is a list of paths with what is stored there.  What the
operating system decides (whether a write or a read fails) and what the
archiver library does are parameters. -/

/-- What is stored at a path: a regular file or a directory. -/
inductive FsNode where
  | file (content : List Byte)
  | dir
deriving DecidableEq, Repr

/-- The working directory: paths and what they hold. -/
abbrev Disk := List (String × FsNode)

/-- What is stored at `path`, if anything. -/
def Disk.get (d : Disk) (path : String) : Option FsNode := List.lookup path d

/-- The disk without the entry `path`. -/
def Disk.erase (d : Disk) (path : String) : Disk := d.filter (fun e => e.1 ≠ path)

/-- The disk with `node` stored at `path`. -/
def Disk.put (d : Disk) (path : String) (node : FsNode) : Disk := (path, node) :: d.erase path

/-- Whether some entry lies below `path`. -/
def Disk.hasChildren (d : Disk) (path : String) : Bool :=
  d.any (fun e => (path.toList ++ ['/']).isPrefixOf e.1.toList)

/-- Whether `path` lies below a regular file. -/
def Disk.underFile (d : Disk) (path : String) : Bool :=
  d.any (fun e =>
    match e.2 with
    | FsNode.file _ => (e.1.toList ++ ['/']).isPrefixOf path.toList
    | FsNode.dir => false)

/-- The function `os.Remove(name)`: removes a file or an empty directory. -/
def os_Remove (d : Disk) (name : String) : Disk × Option Error :=
  match d.get name with
  | none => (d, some ⟨"remove " ++ name ++ ": no such file or directory"⟩)
  | some (FsNode.file _) => (d.erase name, none)
  | some FsNode.dir =>
    if d.hasChildren name then (d, some ⟨"remove " ++ name ++ ": directory not empty"⟩)
    else (d.erase name, none)

/-- How a call of `ioutil.WriteFile` goes: it completes, it cannot open the
file, or it fails after writing the first `n` bytes. -/
inductive WriteOutcome where
  | done
  | openFails (e : Error)
  | writeFails (n : Nat) (e : Error)
deriving DecidableEq, Repr

/-- The function `ioutil.WriteFile(filename, data, perm)`. -/
def ioutil_WriteFile (o : WriteOutcome) (d : Disk) (filename : String) (data : List Byte) :
    Disk × Option Error :=
  match d.get filename with
  | some FsNode.dir => (d, some ⟨"open " ++ filename ++ ": is a directory"⟩)
  | _ =>
    match o with
    | WriteOutcome.done => (d.put filename (FsNode.file data), none)
    | WriteOutcome.openFails e => (d, some e)
    | WriteOutcome.writeFails n e => (d.put filename (FsNode.file (data.take n)), some e)

/-- The function `ioutil.ReadFile(filename)`; `readErr` is the failure of the
read of an existing file, if any. -/
def ioutil_ReadFile (readErr : Option Error) (d : Disk) (filename : String) :
    Except Error (List Byte) :=
  match d.get filename with
  | none => .error ⟨"open " ++ filename ++ ": no such file or directory"⟩
  | some FsNode.dir => .error ⟨"read " ++ filename ++ ": is a directory"⟩
  | some (FsNode.file content) =>
    match readErr with
    | some e => .error e
    | none => .ok content

/-- A directory or a file that an unpacker creates. -/
inductive FsWrite where
  | mkdir (path : String)
  | create (path : String) (content : List Byte)
deriving DecidableEq, Repr

/-- How packing goes: the archive is written whole, or packing fails, having
created the archive file with some content (`some`) or not at all (`none`). -/
inductive PackOutcome where
  | packed (archive : List Byte)
  | failed (written : Option (List Byte)) (err : Error)
deriving DecidableEq, Repr

/-- The zip format of the archiver library.

* `Make disk filePaths` is how packing `filePaths` goes on this disk.
* `Open archive destination` is what unpacking an archive with these bytes
  does: the directories and files it creates, in order, and the error it
  reports, if any, after them. -/
structure Archiver where
  Make : Disk → List String → PackOutcome
  Open : List Byte → String → List FsWrite × Option Error

/-- One creation on the disk: refused below a regular file, and where a node
of the other kind is in the way. -/
def Disk.apply (d : Disk) : FsWrite → Disk × Option Error
  | FsWrite.mkdir path =>
    if d.underFile path then (d, some ⟨"mkdir " ++ path ++ ": not a directory"⟩)
    else
      match d.get path with
      | some (FsNode.file _) => (d, some ⟨"mkdir " ++ path ++ ": not a directory"⟩)
      | some FsNode.dir => (d, none)
      | none => (d.put path FsNode.dir, none)
  | FsWrite.create path content =>
    if d.underFile path then (d, some ⟨"open " ++ path ++ ": not a directory"⟩)
    else
      match d.get path with
      | some FsNode.dir => (d, some ⟨"open " ++ path ++ ": is a directory"⟩)
      | _ => (d.put path (FsNode.file content), none)

/-- A sequence of creations, stopping at the first one that is refused. -/
def Disk.applyAll : List FsWrite → Disk → Disk × Option Error
  | [], d => (d, none)
  | w :: ws, d =>
    match d.apply w with
    | (d1, some e) => (d1, some e)
    | (d1, none) => Disk.applyAll ws d1

/-- The call `archiver.Zip.Open(source, destination)`. -/
def archiver_Zip_Open (arch : Archiver) (d : Disk) (source destination : String) :
    Disk × Option Error :=
  match d.get source with
  | some (FsNode.file archive) =>
    match Disk.applyAll (arch.Open archive destination).1 d with
    | (d1, some e) => (d1, some e)
    | (d1, none) => (d1, (arch.Open archive destination).2)
  | _ => (d, some ⟨"open " ++ source ++ ": no such file or directory"⟩)

/-- The call `archiver.Zip.Make(zipPath, filePaths)`. -/
def archiver_Zip_Make (arch : Archiver) (d : Disk) (zipPath : String) (filePaths : List String) :
    Disk × Option Error :=
  match d.get zipPath with
  | some FsNode.dir => (d, some ⟨"error creating " ++ zipPath ++ ": is a directory"⟩)
  | _ =>
    match arch.Make d filePaths with
    | PackOutcome.packed archive => (d.put zipPath (FsNode.file archive), none)
    | PackOutcome.failed none err => (d, some err)
    | PackOutcome.failed (some written) err => (d.put zipPath (FsNode.file written), some err)

/-! ## Sync protocol -/

/-- The codec `cbor.Multicodec()` of go-multicodec, at the type `[]byte`; the
fields are as in `RecordCodec`. -/
structure BlobCodec where
  encode : List Byte → List (List Byte) × Option Error
  decode : List Byte → Option Error → Except Error (List Byte) × List Byte

/-- The struct `DataStream`: the stream below the reader and the writer, and
the state of the `bufio.Writer`.  (The Go field `stream` is left nil by
`WrapDataStream` and is never used.) -/
structure DataStream where
  stream : Stream
  writer : Writer
deriving DecidableEq, Repr

/-- The function `WrapDataStream`. -/
def WrapDataStream (stream : Stream) : DataStream :=
  { stream := stream, writer := bufio_NewWriter }

/-- The call `encoder.Encode(data)` on the encoder of a `DataStream`. -/
def DataStream.Encode (codec : BlobCodec) (ds : DataStream) (data : List Byte) :
    DataStream × Option Error :=
  match Writer.writeChunks (codec.encode data).1 ds.writer ds.stream with
  | (w1, s1, some e) => ({ stream := s1, writer := w1 }, some e)
  | (w1, s1, none) => ({ stream := s1, writer := w1 }, (codec.encode data).2)

/-- The call `decoder.Decode(&file)` on the decoder of a `DataStream`. -/
def DataStream.Decode (codec : BlobCodec) (ds : DataStream) :
    DataStream × Except Error (List Byte) :=
  match codec.decode ds.stream.inbound ds.stream.endErr with
  | (res, rest) =>
    ({ ds with stream :=
        { ds.stream with inbound := rest, log := ds.stream.log ++ [StreamOp.read] } }, res)

/-- The method `decodeTransfer`. -/
def DataStream.decodeTransfer (codec : BlobCodec) (arch : Archiver) (o : WriteOutcome)
    (wrappedDataStream : DataStream) (disk : Disk) : DataStream × Disk × Option Error :=
  match wrappedDataStream.Decode codec with
  | (ds1, .error err) => (ds1, disk, some err)
  | (ds1, .ok file) =>
    match ioutil_WriteFile o disk "data.zip" file with
    | (disk1, some err) => (ds1, (os_Remove disk1 "data.zip").1, some err)
    | (disk1, none) =>
      match archiver_Zip_Open arch disk1 "data.zip" "" with
      | (disk2, some err) =>
        (ds1, (os_Remove (os_Remove disk2 "data.zip").1 "data").1, some err)
      | (disk2, none) => (ds1, (os_Remove disk2 "data.zip").1, none)

/-- The method `encodeFile`. -/
def DataStream.encodeFile (codec : BlobCodec) (arch : Archiver) (readErr : Option Error)
    (wrappedDataStream : DataStream) (disk : Disk) :
    DataStream × Disk × Outcome (Option Error) :=
  match archiver_Zip_Make arch disk "data.zip" ["data"] with
  | (disk1, none) =>
    match ioutil_ReadFile readErr disk1 "data.zip" with
    | .error err => (wrappedDataStream, disk1, .panicked err)
    | .ok data =>
      match wrappedDataStream.Encode codec data with
      | (ds1, err) =>
        match ds1.writer.Flush ds1.stream with
        | (w2, s2, _) =>
          ({ stream := s2, writer := w2 }, (os_Remove disk1 "data.zip").1, .returned err)
  | (disk1, some err) => (wrappedDataStream, disk1, .returned (some err))

/-- What a stream handler leaves behind, the disk included. -/
structure ServeRun where
  stream : Stream
  disk : Disk
  stdout : List GoString
  result : Outcome Unit
deriving DecidableEq, Repr

/-- The handler that `SyncProtocolMultiplexer` registers for `syncProtocol`. -/
def syncHandler (codec : BlobCodec) (arch : Archiver) (readErr : Option Error)
    (stream : Stream) (disk : Disk) : ServeRun :=
  let out0 := [lit "Sync intiated!\n"]
  let wrappedDataStream := WrapDataStream stream
  match wrappedDataStream.encodeFile codec arch readErr disk with
  | (ds1, disk1, .panicked e) =>
    { stream := ds1.stream, disk := disk1, stdout := out0, result := .panicked e }
  | (ds1, disk1, .returned (some err)) =>
    { stream := ds1.stream.Reset, disk := disk1, stdout := out0 ++ [lit err.msg ++ lit "\n"],
      result := .returned () }
  | (ds1, disk1, .returned none) =>
    { stream := ds1.stream.Close, disk := disk1, stdout := out0, result := .returned () }

/-- Everything the four handlers depend on besides the stream and the disk. -/
structure ServeEnv where
  lib : Lib
  recordCodec : RecordCodec
  fmtF : Float64 → GoString
  blobCodec : BlobCodec
  arch : Archiver
  readErr : Option Error

/-- Runs the handler that a tag stands for. -/
def Handler.run (env : ServeEnv) : Handler → Stream → Disk → ServeRun
  | Handler.heartbeat, stream, disk =>
    match heartbeatHandler env.lib stream with
    | r => { stream := r.stream, disk := disk, stdout := r.stdout, result := r.result }
  | Handler.ping, stream, disk =>
    match pingHandler stream with
    | r => { stream := r.stream, disk := disk, stdout := r.stdout, result := r.result }
  | Handler.payment, stream, disk =>
    match paymentHandler env.recordCodec env.fmtF stream with
    | r => { stream := r.stream, disk := disk, stdout := r.stdout, result := r.result }
  | Handler.sync, stream, disk => syncHandler env.blobCodec env.arch env.readErr stream disk

/-! ## Auxiliary notions used in the proofs -/

/-- The invariant of a `bufio.Writer` over a stream on which nothing but this
writer acts: `total` is everything handed to the writer, `p` the part of it
that the running `Write` has not taken yet. -/
structure Writer.LoopInv (w : Writer) (s : Stream) (p total : List Byte) : Prop where
  onlyWrites : ∀ op ∈ s.log, ∃ q, op = StreamOp.write q
  sentEq : s.sent = if s.writeErr = none then (writes s.log).flatten else []
  pending : w.err = none → (writes s.log).flatten ++ w.buf ++ p = total
  attempted : (writes s.log).flatten <+: total
  noErr : s.writeErr = none → w.err = none

/-- The condition of the loop of `bufio.Writer.Write`. -/
def Writer.loopCond (w : Writer) (p : List Byte) : Prop :=
  p.length > w.Available ∧ w.err = none

/-- The bytes `bytes` are one encoded record `tx`: the encoder accepted the
record, and they are all it wrote for it. -/
def RecordCodec.Encodes (codec : RecordCodec) (tx : TransactionWrapper) (bytes : List Byte) :
    Prop :=
  (codec.encode tx).2 = none ∧ bytes = (codec.encode tx).1.flatten

/-- The payment stream as `NewStream` hands it to `Payment`. -/
def paymentStream0 (node : PeerNode) (peerID : PeerID) (r : Remote) : Stream :=
  { protocol := paymentProtocol, localPeer := node.id, remotePeer := peerID,
    inbound := r.inbound, endErr := r.endErr, writeErr := r.writeErr, sent := [], log := [] }

/-- The ping stream as `NewStream` hands it to `Payment`. -/
def pingStream0 (node : PeerNode) (peerID : PeerID) (r : Remote) : Stream :=
  { protocol := pingProtocol, localPeer := node.id, remotePeer := peerID,
    inbound := r.inbound, endErr := r.endErr, writeErr := r.writeErr, sent := [], log := [] }

/-! ## A concrete instance

Small stand-ins for the library parameters, used to run the model on examples.
`demoCodec` writes a record as JSON text behind the multicodec header, on a
fragment of the inputs: strings of plain ASCII characters and the amounts
listed in `demoFloatText`; outside the fragment it reports an error. -/

/-- The value that follows the segment `name` in a list of path segments. -/
def segmentValue (name : GoString) : List GoString → Option GoString
  | [] => none
  | [_] => none
  | a :: b :: rest => if a = name then some b else segmentValue name (b :: rest)

def demoLib : Lib where
  NewMultiaddr a :=
    if a.head? = some 47 then .ok ⟨a⟩ else .error ⟨"invalid multiaddr, must begin with /"⟩
  ValueForProtocol m code :=
    if code = P_IPFS then
      match segmentValue (lit "ipfs") (m.text.splitOn 47) with
      | some v => .ok v
      | none => .error ⟨"protocol not found in multiaddr"⟩
    else .error ⟨"protocol not found in multiaddr"⟩
  Decapsulate m o :=
    if o.text.isSuffixOf m.text then ⟨m.text.take (m.text.length - o.text.length)⟩ else m
  IDB58Decode t := if t = [] then .error ⟨"multihash too short"⟩ else .ok ⟨t⟩
  Pretty id := id.raw
  String id := lit "<peer.ID " ++ (id.raw.drop 2).take 6 ++ lit ">"

def demoNode : PeerNode :=
  { id := ⟨lit "QmLocalPeer"⟩, addrs := [⟨lit "/ip4/127.0.0.1/tcp/101"⟩], peerstore := [] }

def demoDestination : GoString := lit "/ip4/127.0.0.1/tcp/102/ipfs/QmRemotePeer"

/-- The float64 value 12.5. -/
def f64_12_5 : Float64 := ⟨4623226492472524800⟩

/-- The float64 value 0.1 + 0.2, printed 0.30000000000000004. -/
def f64_0_1_plus_0_2 : Float64 := ⟨4599075939470750516⟩

/-- Whether a `float64` is finite: its exponent field is not all ones. -/
def Float64.isFinite (f : Float64) : Bool := (f.bits / 2 ^ 52) % 2 ^ 11 != 2047

/-- The float64 value NaN (the quiet NaN that `strconv.ParseFloat("NaN", 64)` gives). -/
def f64_NaN : Float64 := ⟨9221120237041090561⟩

def demoFloatText (f : Float64) : Option GoString :=
  if f = f64_12_5 then some (lit "12.5")
  else if f = f64_0_1_plus_0_2 then some (lit "0.30000000000000004")
  else none

def demoParseFloat (t : GoString) : Option Float64 :=
  if t = lit "12.5" then some f64_12_5
  else if t = lit "0.30000000000000004" then some f64_0_1_plus_0_2
  else none

/-- Printable ASCII other than the characters the JSON encoder escapes. -/
def plainByte (b : Byte) : Bool :=
  decide (32 ≤ b.toNat) && decide (b.toNat ≤ 126) &&
    !(b == 34 || b == 92 || b == 60 || b == 62 || b == 38)

/-- The multicodec header of the JSON codec: the length byte, the path and a newline. -/
def jsonHeader : List Byte := 6 :: lit "/json\n"

/-- The encoder writes the header first and then the JSON text of the record;
a NaN or infinite amount has no JSON text, and only the header is written. -/
def demoEncode (tx : TransactionWrapper) : List (List Byte) × Option Error :=
  if tx.Amount.isFinite then
    match tx.Sender.all plainByte && tx.Receiver.all plainByte, demoFloatText tx.Amount with
    | true, some num =>
      ([jsonHeader,
        lit "\x7b\"Sender\":\"" ++ tx.Sender ++ lit "\",\"Receiver\":\"" ++ tx.Receiver ++
          lit "\",\"Amount\":" ++ num ++ lit "\x7d\n"], none)
    | _, _ => ([jsonHeader], some ⟨"json: value outside the modelled fragment"⟩)
  else ([jsonHeader], some ⟨"json: unsupported value"⟩)

/-- Removes the leading bytes `p` from `l`, when `l` starts with them. -/
def stripLeading (p l : List Byte) : Option (List Byte) :=
  if p.isPrefixOf l then some (l.drop p.length) else none

/-- Splits before the first occurrence of `d`, which is dropped. -/
def takeUntil (d : Byte) : List Byte → Option (List Byte × List Byte)
  | [] => none
  | b :: bs =>
    if b = d then some ([], bs)
    else match takeUntil d bs with
      | some (l, r) => some (b :: l, r)
      | none => none

def demoParse (inbound : List Byte) : Option (TransactionWrapper × List Byte) := do
  let r ← stripLeading jsonHeader inbound
  let r ← stripLeading (lit "\x7b\"Sender\":\"") r
  let (sender, r) ← takeUntil 34 r
  let r ← stripLeading (lit ",\"Receiver\":\"") r
  let (receiver, r) ← takeUntil 34 r
  let r ← stripLeading (lit ",\"Amount\":") r
  let (num, r) ← takeUntil 125 r
  let amount ← demoParseFloat num
  pure ({ Sender := sender, Receiver := receiver, Amount := amount }, r)

def demoDecode (inbound : List Byte) (endErr : Option Error) :
    Except Error TransactionWrapper × List Byte :=
  match demoParse inbound with
  | some (tx, rest) => (.ok tx, rest)
  | none => (.error (endErr.getD ⟨"multicodec did not match"⟩), [])

def demoCodec : RecordCodec := { encode := demoEncode, decode := demoDecode }

/-- A stream accepted from a remote peer, before any call is made on it. -/
def inboundStream (protocol : String) (localPeer remotePeer : PeerID) (r : Remote) : Stream :=
  { protocol := protocol, localPeer := localPeer, remotePeer := remotePeer,
    inbound := r.inbound, endErr := r.endErr, writeErr := r.writeErr, sent := [], log := [] }

/-- A network in which every dial succeeds and the remote side answers on the
ping protocol as `pingHandler` does. -/
def demoNet : Net where
  dial _ protocol :=
    if protocol = pingProtocol then
      .ok { inbound := lit "\nTransaction Successful \t Thank You!\n", endErr := none, writeErr := none }
    else .ok { inbound := [], endErr := none, writeErr := none }

/-- A network in which the payment stream opens and the ping stream does not. -/
def netPingRefused : Net where
  dial _ protocol :=
    if protocol = pingProtocol then .error ⟨"protocol not supported"⟩
    else .ok { inbound := [], endErr := none, writeErr := none }

/-- A network in which the ping stream opens and then fails while being read. -/
def netPingReset : Net where
  dial _ protocol :=
    if protocol = pingProtocol then
      .ok { inbound := [], endErr := some ⟨"stream reset"⟩, writeErr := none }
    else .ok { inbound := [], endErr := none, writeErr := none }

/-- An inbound heartbeat stream carrying one line. -/
def demoHeartbeatInbound : Stream :=
  inboundStream heartbeatprotocol ⟨lit "QmRemotePeer"⟩ ⟨lit "QmLocalPeer"⟩
    { inbound := lit " <peer.ID LocalP> is checking availablity\n", endErr := none,
      writeErr := none }

/-- An inbound heartbeat stream that ends before any newline. -/
def demoHeartbeatTruncated : Stream :=
  inboundStream heartbeatprotocol ⟨lit "QmRemotePeer"⟩ ⟨lit "QmLocalPeer"⟩
    { inbound := lit " <peer.ID LocalP> is checking", endErr := none, writeErr := none }

/-- An inbound payment stream carrying one encoded record. -/
def demoPaymentInbound : Stream :=
  inboundStream paymentProtocol ⟨lit "QmRemotePeer"⟩ ⟨lit "QmLocalPeer"⟩
    { inbound := (demoEncode ⟨lit "A", lit "B", f64_12_5⟩).1.flatten, endErr := none,
      writeErr := none }

/-- An inbound payment stream carrying a truncated record. -/
def demoPaymentTruncated : Stream :=
  inboundStream paymentProtocol ⟨lit "QmRemotePeer"⟩ ⟨lit "QmLocalPeer"⟩
    { inbound := jsonHeader ++ lit "\x7b\"Sender\":\"A", endErr := none, writeErr := none }

/-- A fresh outbound payment stream on which writes are accepted. -/
def demoOutbound : Stream :=
  paymentStream0 demoNode ⟨lit "QmRemotePeer"⟩ { inbound := [], endErr := none, writeErr := none }

/-- The inbound stream that delivers `bytes` and then ends cleanly. -/
def demoDelivering (bytes : List Byte) : Stream :=
  inboundStream paymentProtocol ⟨lit "QmRemotePeer"⟩ ⟨lit "QmLocalPeer"⟩
    { inbound := bytes, endErr := none, writeErr := none }

/-- A network on which writes to the payment stream fail. -/
def netPaymentWriteFails : Net where
  dial _ protocol :=
    if protocol = pingProtocol then
      .ok { inbound := lit "\nTransaction Successful \t Thank You!\n", endErr := none, writeErr := none }
    else .ok { inbound := [], endErr := none, writeErr := some ⟨"stream closed"⟩ }

/-- The multicodec header of the CBOR codec. -/
def cborHeader : List Byte := 6 :: lit "/cbor\n"

/-- A stand-in for the CBOR multicodec on blobs shorter than 256 bytes: the
header, then a byte string with a one-byte length.  Longer blobs are outside
the fragment and reported as an error. -/
def demoBlobCodec : BlobCodec where
  encode data :=
    if data.length < 256 then ([cborHeader, 88 :: data.length.toUInt8 :: data], none)
    else ([cborHeader], some ⟨"cbor: value outside the modelled fragment"⟩)
  decode inbound endErr :=
    match stripLeading cborHeader inbound with
    | some (88 :: n :: tail) =>
      if n.toNat ≤ tail.length then (.ok (tail.take n.toNat), tail.drop n.toNat)
      else (.error (endErr.getD ⟨"unexpected EOF"⟩), [])
    | _ => (.error (endErr.getD ⟨"multicodec did not match"⟩), [])

/-- A stand-in for the zip format with two archives: `"good"` holds the
directory `data` with the file `data/a.txt`; `"truncated"` holds the same and
breaks off inside the file.  Packing needs the directory `data`; without it,
packing fails after the archive file has been created. -/
def demoArchiver : Archiver where
  Make disk _ :=
    match disk.get "data" with
    | some FsNode.dir => PackOutcome.packed (lit "good")
    | _ => PackOutcome.failed (some []) ⟨"data: stat: no such file or directory"⟩
  Open archive _ :=
    if archive = lit "good" then
      ([FsWrite.mkdir "data", FsWrite.create "data/a.txt" (lit "hello")], none)
    else if archive = lit "truncated" then
      ([FsWrite.mkdir "data", FsWrite.create "data/a.txt" (lit "he")], some ⟨"unexpected EOF"⟩)
    else ([], some ⟨"zip: not a valid zip file"⟩)

/-- An inbound sync stream, as the requester sees it, delivering `bytes`. -/
def demoSyncDelivering (bytes : List Byte) : Stream :=
  inboundStream syncProtocol ⟨lit "QmLocalPeer"⟩ ⟨lit "QmRemotePeer"⟩
    { inbound := bytes, endErr := none, writeErr := none }

/-- An inbound sync stream, as the responder sees it. -/
def demoSyncInbound (writeErr : Option Error) : Stream :=
  inboundStream syncProtocol ⟨lit "QmRemotePeer"⟩ ⟨lit "QmLocalPeer"⟩
    { inbound := [], endErr := none, writeErr := writeErr }

/-- A working directory holding the shared directory with one file. -/
def demoDisk : Disk := [("data", FsNode.dir), ("data/a.txt", FsNode.file (lit "hello"))]

def demoEnv : ServeEnv :=
  { lib := demoLib, recordCodec := demoCodec, fmtF := fun _ => lit "12.500000",
    blobCodec := demoBlobCodec, arch := demoArchiver, readErr := none }

/-! ## Basic facts about the model -/

set_option maxRecDepth 20000

theorem addAddressToPeerstore_id (lib : Lib) (node : PeerNode) (address : GoString) :
    (addAddressToPeerstore lib node address).1.id = node.id := by
  unfold addAddressToPeerstore
  repeat' (first | rfl | split | dsimp only)

theorem addAddressToPeerstore_addrs (lib : Lib) (node : PeerNode) (address : GoString) :
    (addAddressToPeerstore lib node address).1.addrs = node.addrs := by
  unfold addAddressToPeerstore
  repeat' (first | rfl | split | dsimp only)

theorem writes_append (l1 l2 : List StreamOp) : writes (l1 ++ l2) = writes l1 ++ writes l2 := by
  induction l1 with
  | nil => rfl
  | cons op ops ih => cases op <;> simp [writes, ih]

theorem splitAfter_append (d : Byte) (l rest : List Byte) (h : d ∉ l) :
    splitAfter d (l ++ d :: rest) = some (l ++ [d], rest) := by
  induction l with
  | nil => simp [splitAfter]
  | cons b bs ih =>
    have hb : b ≠ d := fun e => h (by simp [e])
    have hbs : d ∉ bs := fun e => h (by simp [e])
    simp [splitAfter, hb, ih hbs]

theorem splitAfter_none (d : Byte) (l : List Byte) (h : d ∉ l) : splitAfter d l = none := by
  induction l with
  | nil => simp [splitAfter]
  | cons b bs ih =>
    have hb : b ≠ d := fun e => h (by simp [e])
    have hbs : d ∉ bs := fun e => h (by simp [e])
    simp [splitAfter, hb, ih hbs]

theorem splitAfter_some (d : Byte) (l line rest : List Byte)
    (h : splitAfter d l = some (line, rest)) :
    l = line ++ rest ∧ ∃ l0, line = l0 ++ [d] ∧ d ∉ l0 := by
  induction l generalizing line with
  | nil => simp [splitAfter] at h
  | cons b bs ih =>
    unfold splitAfter at h
    by_cases hb : b = d
    · simp [hb] at h
      obtain ⟨h1, h2⟩ := h
      subst h1 h2 hb
      exact ⟨rfl, [], rfl, by simp⟩
    · simp only [hb, if_false] at h
      cases hs : splitAfter d bs with
      | none => simp [hs] at h
      | some pr =>
        obtain ⟨line1, rest1⟩ := pr
        simp [hs] at h
        obtain ⟨h1, h2⟩ := h
        subst h1 h2
        obtain ⟨e1, l0, e2, e3⟩ := ih line1 hs
        refine ⟨by simp [e1], b :: l0, by simp [e2], ?_⟩
        intro hm
        rcases List.mem_cons.mp hm with hm | hm
        · exact hb hm.symm
        · exact e3 hm

/-- What `Heartbeat` does once the destination is resolved and the stream is open. -/
theorem Heartbeat_stream (lib : Lib) (net : Net) (node : PeerNode) (destination : GoString)
    (peerID : PeerID) (r : Remote)
    (hres : (addAddressToPeerstore lib node destination).2 = .returned (peerID, none))
    (hdial : net.dial peerID heartbeatprotocol = .ok r) :
    ∃ s, (node.Heartbeat lib net destination).stream = some s ∧
      writes s.log = [lit " " ++ lib.String node.id ++ lit " is checking availablity\n"] ∧
      (∀ op ∈ s.log, op ≠ StreamOp.close ∧ op ≠ StreamOp.reset) ∧
      (r.writeErr = none →
        s.sent = lit " " ++ lib.String node.id ++ lit " is checking availablity\n") := by
  have hid := addAddressToPeerstore_id lib node destination
  generalize hA : addAddressToPeerstore lib node destination = A at hres hid
  obtain ⟨node1, out⟩ := A
  simp only at hres hid
  subst hres
  unfold PeerNode.Heartbeat
  simp only [hA, PeerNode.NewStream, hdial, Stream.Write, ioutil_ReadAll]
  cases hw : r.writeErr with
  | some e => simp [writes, hid]
  | none =>
    cases he : r.endErr with
    | some e => simp [writes, hid]
    | none => simp [writes, hid]

/-! ## Heartbeat: the line on the wire -/

/-- C3: heartbeat round trip on the wire.  When the text of the local peer ID
contains no newline, `Heartbeat` makes one `Write`, and the responder's
`ReadString('\n')`, run on exactly the bytes of that write, reports no error,
returns the whole message as its one line and leaves nothing unread. -/
theorem heartbeat_wire_round_trip (lib : Lib) (net : Net) (node : PeerNode)
    (destination : GoString) (peerID : PeerID) (r : Remote)
    (hres : (addAddressToPeerstore lib node destination).2 = .returned (peerID, none))
    (hdial : net.dial peerID heartbeatprotocol = .ok r)
    (hnl : (10 : Byte) ∉ lib.String node.id) :
    ∃ s msg, (node.Heartbeat lib net destination).stream = some s ∧
      writes s.log = [msg] ∧ msg ≠ [] ∧
      ∀ t : Stream, t.inbound = msg →
        (bufio_NewReader t).ReadString 10 =
          (⟨{ t with inbound := [], log := t.log ++ [StreamOp.read] }⟩, msg, none) := by
  obtain ⟨s, hs, hwr, _, _⟩ := Heartbeat_stream lib net node destination peerID r hres hdial
  refine ⟨s, _, hs, hwr, ?_, ?_⟩
  · have h1 : lit " " = [32] := by decide
    rw [h1]; simp
  · intro t ht
    have hmsg : lit " " ++ lib.String node.id ++ lit " is checking availablity\n" =
        (lit " " ++ lib.String node.id ++ lit " is checking availablity") ++ 10 :: [] := by
      have : lit " is checking availablity\n" = lit " is checking availablity" ++ [10] := by
        decide
      rw [this]; simp
    have hno : (10 : Byte) ∉ lit " " ++ lib.String node.id ++ lit " is checking availablity" := by
      have h1 : (10 : Byte) ∉ lit " " := by decide
      have h2 : (10 : Byte) ∉ lit " is checking availablity" := by decide
      simp only [List.mem_append, not_or]
      exact ⟨⟨h1, hnl⟩, h2⟩
    unfold Reader.ReadString bufio_NewReader
    simp only [ht]
    rw [hmsg, splitAfter_append _ _ _ hno]

/-- The round trip of C3 on the demo node. -/
theorem heartbeat_wire_round_trip_witness :
    (addAddressToPeerstore demoLib demoNode demoDestination).2
        = .returned (⟨lit "QmRemotePeer"⟩, none) ∧
      (10 : Byte) ∉ demoLib.String demoNode.id ∧
      ∃ s msg, (demoNode.Heartbeat demoLib demoNet demoDestination).stream = some s ∧
        writes s.log = [msg] ∧ msg ≠ [] ∧
        ∀ t : Stream, t.inbound = msg →
          (bufio_NewReader t).ReadString 10 =
            (⟨{ t with inbound := [], log := t.log ++ [StreamOp.read] }⟩, msg, none) :=
  ⟨by decide, by decide,
    heartbeat_wire_round_trip demoLib demoNet demoNode demoDestination ⟨lit "QmRemotePeer"⟩
      { inbound := [], endErr := none, writeErr := none } (by decide) rfl (by decide)⟩

/-! ## Heartbeat: what the initiator writes -/

/-- C4, as stated, fails: the message written for the demo node is not the
text of its peer ID followed by " is checking availability" and a newline. -/
theorem heartbeat_message_is_not_spec_text :
    (demoNode.Heartbeat demoLib demoNet demoDestination).stream.map (fun s => writes s.log) ≠
      some [demoLib.String demoNode.id ++ lit " is checking availability\n"] := by
  decide

/-- C4, amended: once its stream is open, `Heartbeat` makes exactly one
`Write` on it, of a space, the text of the local peer ID, the words
" is checking availablity" and one newline; it never closes or resets the
stream, and when the write is accepted these are the only bytes sent. -/
theorem heartbeat_initiator_writes_one_line (lib : Lib) (net : Net) (node : PeerNode)
    (destination : GoString) (peerID : PeerID) (r : Remote)
    (hres : (addAddressToPeerstore lib node destination).2 = .returned (peerID, none))
    (hdial : net.dial peerID heartbeatprotocol = .ok r) :
    ∃ s, (node.Heartbeat lib net destination).stream = some s ∧
      writes s.log = [lit " " ++ lib.String node.id ++ lit " is checking availablity" ++ [10]] ∧
      (r.writeErr = none →
        s.sent = lit " " ++ lib.String node.id ++ lit " is checking availablity" ++ [10]) := by
  obtain ⟨s, hs, hwr, _, hsent⟩ := Heartbeat_stream lib net node destination peerID r hres hdial
  have : lit " is checking availablity\n" = lit " is checking availablity" ++ [10] := by decide
  rw [this] at hwr hsent
  simp only [← List.append_assoc] at hwr hsent
  exact ⟨s, hs, hwr, hsent⟩

/-- The amended C4 on the demo node. -/
theorem heartbeat_initiator_writes_one_line_witness :
    (addAddressToPeerstore demoLib demoNode demoDestination).2
        = .returned (⟨lit "QmRemotePeer"⟩, none) ∧
      ∃ s, (demoNode.Heartbeat demoLib demoNet demoDestination).stream = some s ∧
        writes s.log =
          [lit " " ++ demoLib.String demoNode.id ++ lit " is checking availablity" ++ [10]] ∧
        ((⟨[], none, none⟩ : Remote).writeErr = none →
          s.sent = lit " " ++ demoLib.String demoNode.id ++ lit " is checking availablity" ++ [10]) :=
  ⟨by decide,
    heartbeat_initiator_writes_one_line demoLib demoNet demoNode demoDestination
      ⟨lit "QmRemotePeer"⟩ { inbound := [], endErr := none, writeErr := none }
      (by decide) rfl⟩

/-! ## Heartbeat: the responder -/

/-- C5, as stated, fails: the reply written on the demo stream is not the text
of the responder's peer ID followed by
" received the message, node is still online". -/
theorem heartbeat_reply_is_not_spec_text :
    writes (heartbeatHandler demoLib demoHeartbeatInbound).stream.log ≠
      [demoLib.String demoHeartbeatInbound.localPeer ++
        lit " received the message, node is still online"] := by
  decide

/-- C5, amended: whenever reading one line succeeds, the responder makes, after
the read, exactly one `Write`, of the text of its own peer ID followed by
" recieved the message \t Node Is still online", and then closes the stream;
it does not reset it, and when the write is accepted the reply is what was
sent. -/
theorem heartbeat_responder_reply (lib : Lib) (stream : Stream)
    (h : ((bufio_NewReader stream).ReadString 10).2.2 = none) :
    (heartbeatHandler lib stream).stream.log = stream.log ++
      [StreamOp.read,
       StreamOp.write (lib.String stream.localPeer ++
          lit " recieved the message \t Node Is still online"),
       StreamOp.close] ∧
    (stream.writeErr = none →
      (heartbeatHandler lib stream).stream.sent = stream.sent ++
        (lib.String stream.localPeer ++ lit " recieved the message \t Node Is still online")) ∧
    (heartbeatHandler lib stream).result = .returned () := by
  unfold Reader.ReadString bufio_NewReader at h
  unfold heartbeatHandler Reader.ReadString bufio_NewReader
  cases hs : splitAfter 10 stream.inbound with
  | none => simp [hs] at h
  | some pr =>
    obtain ⟨line, rest⟩ := pr
    cases hw : stream.writeErr with
    | none => simp [hs, Stream.Write, Stream.Close, hw]
    | some e => simp [hs, Stream.Write, Stream.Close, hw]

/-- The amended C5 on a stream carrying one line. -/
theorem heartbeat_responder_reply_witness :
    ((bufio_NewReader demoHeartbeatInbound).ReadString 10).2.2 = none ∧
    (heartbeatHandler demoLib demoHeartbeatInbound).stream.log = demoHeartbeatInbound.log ++
      [StreamOp.read,
       StreamOp.write (demoLib.String demoHeartbeatInbound.localPeer ++
          lit " recieved the message \t Node Is still online"),
       StreamOp.close] :=
  ⟨by decide, (heartbeat_responder_reply demoLib demoHeartbeatInbound (by decide)).1⟩

/-- C6: when the inbound content ends (cleanly or with a read error) without a
newline byte, the line read reports an error, and the responder then resets
the stream, writes nothing and does not close it.  Conversely, on any stream
where the responder makes a `Write`, a newline-terminated line was read. -/
theorem heartbeat_framing_mismatch (lib : Lib) (stream : Stream)
    (h : (10 : Byte) ∉ stream.inbound) :
    ((bufio_NewReader stream).ReadString 10).2.2 = some (stream.endErr.getD io_EOF) ∧
    (heartbeatHandler lib stream).stream.log = stream.log ++ [StreamOp.read, StreamOp.reset] ∧
    (heartbeatHandler lib stream).stream.sent = stream.sent ∧
    (heartbeatHandler lib stream).result = .returned () ∧
    ∀ t : Stream, writes (heartbeatHandler lib t).stream.log ≠ writes t.log →
      ∃ line rest, t.inbound = line ++ 10 :: rest ∧ (10 : Byte) ∉ line ∧
        ((bufio_NewReader t).ReadString 10).2 = (line ++ [10], none) := by
  have hs := splitAfter_none 10 stream.inbound h
  refine ⟨?_, ?_, ?_, ?_, ?_⟩
  · simp [Reader.ReadString, bufio_NewReader, hs]
  · simp [heartbeatHandler, Reader.ReadString, bufio_NewReader, hs, Stream.Reset]
  · simp [heartbeatHandler, Reader.ReadString, bufio_NewReader, hs, Stream.Reset]
  · simp [heartbeatHandler, Reader.ReadString, bufio_NewReader, hs, Stream.Reset]
  · intro t ht
    cases hst : splitAfter 10 t.inbound with
    | none =>
      exfalso
      apply ht
      simp [heartbeatHandler, Reader.ReadString, bufio_NewReader, hst, Stream.Reset, writes_append,
        writes]
    | some pr =>
      obtain ⟨line, rest⟩ := pr
      obtain ⟨e1, l0, e2, e3⟩ := splitAfter_some 10 t.inbound line rest hst
      refine ⟨l0, rest, ?_, e3, ?_⟩
      · rw [e1, e2]; simp
      · simp [Reader.ReadString, bufio_NewReader, hst, e2]

/-- The mismatch of C6 on a stream that ends before a newline. -/
theorem heartbeat_framing_mismatch_witness :
    (10 : Byte) ∉ demoHeartbeatTruncated.inbound ∧
    (heartbeatHandler demoLib demoHeartbeatTruncated).stream.log =
      demoHeartbeatTruncated.log ++ [StreamOp.read, StreamOp.reset] :=
  ⟨by decide, (heartbeat_framing_mismatch demoLib demoHeartbeatTruncated (by decide)).2.1⟩

/-! ## Payment: the two responders -/

/-- C9: the payment responder makes one decode; when it fails the handler
resets the stream and does not close it, when it succeeds the handler closes
the stream and does not reset it; in both cases it makes no `Write` and the
bytes sent on the stream stay as they were. -/
theorem payment_responder_reset_or_close (codec : RecordCodec) (fmtF : Float64 → GoString)
    (stream : Stream) :
    (∀ err, (codec.decode stream.inbound stream.endErr).1 = .error err →
      (paymentHandler codec fmtF stream).stream.log =
        stream.log ++ [StreamOp.read, StreamOp.reset]) ∧
    (∀ tx, (codec.decode stream.inbound stream.endErr).1 = .ok tx →
      (paymentHandler codec fmtF stream).stream.log =
        stream.log ++ [StreamOp.read, StreamOp.close]) ∧
    writes (paymentHandler codec fmtF stream).stream.log = writes stream.log ∧
    (paymentHandler codec fmtF stream).stream.sent = stream.sent ∧
    (paymentHandler codec fmtF stream).result = .returned () := by
  rcases hd : codec.decode stream.inbound stream.endErr with ⟨res, rest⟩
  cases res with
  | error e =>
    simp [paymentHandler, TransactionStream.decodeTransaction, TransactionStream.Decode,
      WrapTransactionStream, hd, Stream.Reset, writes_append, writes]
  | ok tx =>
    simp [paymentHandler, TransactionStream.decodeTransaction, TransactionStream.Decode,
      WrapTransactionStream, hd, Stream.Close, writes_append, writes]

/-- Both branches of C9: a truncated record and a whole one. -/
theorem payment_responder_reset_or_close_witness :
    (demoCodec.decode demoPaymentTruncated.inbound demoPaymentTruncated.endErr).1
        = .error ⟨"multicodec did not match"⟩ ∧
    (paymentHandler demoCodec (fun _ => lit "12.500000") demoPaymentTruncated).stream.log =
      demoPaymentTruncated.log ++ [StreamOp.read, StreamOp.reset] ∧
    (demoCodec.decode demoPaymentInbound.inbound demoPaymentInbound.endErr).1
        = .ok ⟨lit "A", lit "B", f64_12_5⟩ ∧
    (paymentHandler demoCodec (fun _ => lit "12.500000") demoPaymentInbound).stream.log =
      demoPaymentInbound.log ++ [StreamOp.read, StreamOp.close] :=
  ⟨rfl,
   (payment_responder_reset_or_close demoCodec (fun _ => lit "12.500000")
      demoPaymentTruncated).1 _ rfl,
   rfl,
   (payment_responder_reset_or_close demoCodec (fun _ => lit "12.500000")
      demoPaymentInbound).2.1 _ rfl⟩

/-- C10: the ping responder never reads: it leaves the inbound side untouched.
Its one `Write` carries the fixed text, and replacing the inbound payload of
the stream (content and ending) by any other changes neither the calls it
makes, nor the bytes sent, nor its result.  When the write is accepted it
closes the stream and returns. -/
theorem ping_responder_input_independent (s : Stream) (inbound2 : List Byte)
    (endErr2 : Option Error) :
    (pingHandler s).stream.inbound = s.inbound ∧
    (pingHandler { s with inbound := inbound2, endErr := endErr2 }).stream.inbound = inbound2 ∧
    writes (pingHandler s).stream.log =
      writes s.log ++ [lit "\nTransaction Successful \t Thank You!\n"] ∧
    (pingHandler { s with inbound := inbound2, endErr := endErr2 }).stream.log =
      (pingHandler s).stream.log ∧
    (pingHandler { s with inbound := inbound2, endErr := endErr2 }).stream.sent =
      (pingHandler s).stream.sent ∧
    (pingHandler { s with inbound := inbound2, endErr := endErr2 }).result =
      (pingHandler s).result ∧
    (s.writeErr = none →
      (pingHandler s).stream.log = s.log ++
        [StreamOp.write (lit "\nTransaction Successful \t Thank You!\n"), StreamOp.close] ∧
      (pingHandler s).stream.sent = s.sent ++ lit "\nTransaction Successful \t Thank You!\n" ∧
      (pingHandler s).result = .returned ()) := by
  unfold pingHandler Stream.Write
  cases hw : s.writeErr with
  | none => simp [Stream.Close, writes_append, writes]
  | some e => simp [writes_append, writes]

/-- The reply of C10 on a stream with an arbitrary payload. -/
theorem ping_responder_input_independent_witness :
    (inboundStream pingProtocol ⟨lit "QmRemotePeer"⟩ ⟨lit "QmLocalPeer"⟩
        ⟨lit "anything", none, none⟩).writeErr = none ∧
    (pingHandler (inboundStream pingProtocol ⟨lit "QmRemotePeer"⟩ ⟨lit "QmLocalPeer"⟩
        ⟨lit "anything", none, none⟩)).stream.sent =
      lit "\nTransaction Successful \t Thank You!\n" :=
  ⟨rfl,
   ((ping_responder_input_independent
      (inboundStream pingProtocol ⟨lit "QmRemotePeer"⟩ ⟨lit "QmLocalPeer"⟩
        ⟨lit "anything", none, none⟩) [] none).2.2.2.2.2.2 rfl).2.1⟩

/-! ## The buffered writer -/

theorem Stream.Write_eq (s : Stream) (p : List Byte) :
    s.Write p =
      ({ s with sent := if s.writeErr = none then s.sent ++ p else s.sent,
                log := s.log ++ [StreamOp.write p] },
       if s.writeErr = none then p.length else 0, s.writeErr) := by
  unfold Stream.Write
  cases h : s.writeErr <;> simp

theorem Writer.LoopInv.after_write {w : Writer} {s : Stream} {q p total : List Byte}
    (h : Writer.LoopInv w s (q ++ p) total) (hw : w.err = none) (hb : w.buf = []) :
    Writer.LoopInv { w with err := s.writeErr } (s.Write q).1
      (if s.writeErr = none then p else q ++ p) total := by
  have hp := h.pending hw
  rw [hb] at hp
  rw [Stream.Write_eq]
  constructor
  · intro op hop
    simp only [List.mem_append, List.mem_singleton] at hop
    rcases hop with hop | hop
    · exact h.onlyWrites op hop
    · exact ⟨q, hop⟩
  · simp only [writes_append, writes, List.flatten_append, List.flatten_cons, List.flatten_nil,
      List.append_nil]
    cases hwe : s.writeErr with
    | none => simp [h.sentEq, hwe]
    | some e => simp [h.sentEq, hwe]
  · intro he
    simp only at he
    simp only [he, if_true, writes_append, writes, List.flatten_append, List.flatten_cons,
      List.flatten_nil, List.append_nil, hb]
    simpa using hp
  · simp only [writes_append, writes, List.flatten_append, List.flatten_cons, List.flatten_nil,
      List.append_nil]
    exact ⟨p, by simpa using hp⟩
  · intro he; exact he

theorem Writer.Flush_eq (w : Writer) (s : Stream) :
    w.Flush s =
      if w.err = none ∧ w.buf ≠ [] then
        (if s.writeErr = none then { buf := [], err := none } else { buf := w.buf, err := s.writeErr },
         (s.Write w.buf).1, s.writeErr)
      else (w, s, w.err) := by
  unfold Writer.Flush
  cases he : w.err with
  | some e => simp
  | none =>
    by_cases hb : w.buf = []
    · simp [hb]
    · have hl : w.buf.length ≠ 0 := by simpa using hb
      rw [Stream.Write_eq]
      cases hw : s.writeErr with
      | none => simp [hb]
      | some e => simp [hb]

theorem Writer.LoopInv.flush {w : Writer} {s : Stream} {p total : List Byte}
    (h : Writer.LoopInv w s p total) :
    Writer.LoopInv (w.Flush s).1 (w.Flush s).2.1 p total := by
  rw [Writer.Flush_eq]
  by_cases hc : w.err = none ∧ w.buf ≠ []
  · rw [if_pos hc]
    have hp := h.pending hc.1
    rw [Stream.Write_eq]
    constructor
    · intro op hop
      simp only [List.mem_append, List.mem_singleton] at hop
      rcases hop with hop | hop
      · exact h.onlyWrites op hop
      · exact ⟨_, hop⟩
    · simp only [writes_append, writes, List.flatten_append, List.flatten_cons, List.flatten_nil,
        List.append_nil]
      cases hwe : s.writeErr with
      | none => simp [h.sentEq, hwe]
      | some e => simp [h.sentEq, hwe]
    · intro he
      cases hwe : s.writeErr with
      | none =>
        simp only [writes_append, writes, List.flatten_append, List.flatten_cons,
          List.flatten_nil, List.append_nil, hwe, if_true]
        simpa using hp
      | some e => simp [hwe] at he
    · simp only [writes_append, writes, List.flatten_append, List.flatten_cons, List.flatten_nil,
        List.append_nil]
      exact ⟨p, by simpa using hp⟩
    · intro he
      simp only at he
      simp [he]
  · rw [if_neg hc]
    exact h

theorem Writer.Flush_writeErr (w : Writer) (s : Stream) :
    (w.Flush s).2.1.writeErr = s.writeErr := by
  rw [Writer.Flush_eq]
  split
  · rw [Stream.Write_eq]
  · rfl

theorem Writer.Flush_buf (w : Writer) (s : Stream) (h : (w.Flush s).1.err = none) :
    (w.Flush s).1.buf = [] := by
  rw [Writer.Flush_eq] at h ⊢
  by_cases hc : w.err = none ∧ w.buf ≠ []
  · rw [if_pos hc] at h ⊢
    cases hwe : s.writeErr with
    | none => simp
    | some e => simp [hwe] at h
  · rw [if_neg hc] at h ⊢
    simp only at h ⊢
    by_contra hb
    exact hc ⟨h, hb⟩

theorem Writer.LoopInv.fill {w : Writer} {s : Stream} {p total : List Byte} (n : Nat)
    (h : Writer.LoopInv w s p total) :
    Writer.LoopInv { w with buf := w.buf ++ p.take n } s (p.drop n) total := by
  constructor
  · exact h.onlyWrites
  · exact h.sentEq
  · intro he
    have hp := h.pending he
    simp only [List.append_assoc, List.take_append_drop]
    simpa using hp
  · exact h.attempted
  · exact h.noErr

theorem Writer.writeLoop_inv (fuel : Nat) :
    ∀ (w : Writer) (s : Stream) (p total : List Byte) (nn : Nat),
      Writer.LoopInv w s p total →
      Writer.LoopInv (Writer.writeLoop fuel w s p nn).1 (Writer.writeLoop fuel w s p nn).2.1
          (Writer.writeLoop fuel w s p nn).2.2.1 total ∧
        (Writer.writeLoop fuel w s p nn).2.1.writeErr = s.writeErr := by
  induction fuel with
  | zero => intro w s p total nn h; exact ⟨h, rfl⟩
  | succ fuel ih =>
    intro w s p total nn h
    rw [Writer.writeLoop]
    by_cases hc : p.length > w.Available ∧ w.err = none
    · rw [if_pos hc]
      by_cases hb : w.Buffered = 0
      · rw [if_pos hb]
        have hbuf : w.buf = [] := by
          simpa [Writer.Buffered] using hb
        have h1 : Writer.LoopInv w s (p ++ []) total := by simpa using h
        have h2 := Writer.LoopInv.after_write h1 hc.2 hbuf
        have hdrop : p.drop (s.Write p).2.1 = if s.writeErr = none then [] else p ++ [] := by
          rw [Stream.Write_eq]
          cases hwe : s.writeErr <;> simp
        have hwerr : (s.Write p).2.2 = s.writeErr := by rw [Stream.Write_eq]
        have hwe1 : (s.Write p).1.writeErr = s.writeErr := by rw [Stream.Write_eq]
        rw [← hdrop, ← hwerr] at h2
        obtain ⟨k1, k2⟩ := ih _ _ _ total (nn + (s.Write p).2.1) h2
        exact ⟨k1, by rw [k2, hwe1]⟩
      · rw [if_neg hb]
        have h2 := Writer.LoopInv.flush
          (Writer.LoopInv.fill (min w.Available p.length) h)
        obtain ⟨k1, k2⟩ := ih _ _ _ total (nn + min w.Available p.length) h2
        exact ⟨k1, by rw [k2, Writer.Flush_writeErr]⟩
    · rw [if_neg hc]
      exact ⟨h, rfl⟩

theorem Writer.Write_err (w : Writer) (s : Stream) (p : List Byte) :
    (w.Write s p).2.2.2 = (w.Write s p).1.err := by
  unfold Writer.Write
  cases h : (Writer.writeLoop (p.length + 2) w s p 0).1.err <;> simp [h]

theorem Writer.Write_inv {w : Writer} {s : Stream} {data : List Byte} (p : List Byte)
    (h : Writer.LoopInv w s [] data) :
    Writer.LoopInv (w.Write s p).1 (w.Write s p).2.1 [] (data ++ p) ∧
      (w.Write s p).2.1.writeErr = s.writeErr := by
  have h0 : Writer.LoopInv w s p (data ++ p) := by
    constructor
    · exact h.onlyWrites
    · exact h.sentEq
    · intro he
      have := h.pending he
      simp only [List.append_nil] at this
      rw [this]
    · exact List.IsPrefix.trans h.attempted (List.prefix_append _ _)
    · exact h.noErr
  obtain ⟨k1, k2⟩ := Writer.writeLoop_inv (p.length + 2) w s p (data ++ p) 0 h0
  unfold Writer.Write
  cases he : (Writer.writeLoop (p.length + 2) w s p 0).1.err with
  | some e =>
    simp only [he]
    refine ⟨?_, k2⟩
    constructor
    · exact k1.onlyWrites
    · exact k1.sentEq
    · intro hn; rw [he] at hn; cases hn
    · exact k1.attempted
    · exact k1.noErr
  | none =>
    simp only [he]
    refine ⟨?_, k2⟩
    constructor
    · exact k1.onlyWrites
    · exact k1.sentEq
    · intro _
      have := k1.pending he
      simpa using this
    · exact k1.attempted
    · intro _; rfl

theorem Writer.writeChunks_inv (chunks : List (List Byte)) :
    ∀ (w : Writer) (s : Stream) (data : List Byte),
      Writer.LoopInv w s [] data → w.err = none →
      ∃ data1, Writer.LoopInv (Writer.writeChunks chunks w s).1
          (Writer.writeChunks chunks w s).2.1 [] data1 ∧
        data1 <+: data ++ chunks.flatten ∧
        ((Writer.writeChunks chunks w s).2.2 = none → data1 = data ++ chunks.flatten) ∧
        (Writer.writeChunks chunks w s).2.2 = (Writer.writeChunks chunks w s).1.err ∧
        (Writer.writeChunks chunks w s).2.1.writeErr = s.writeErr := by
  induction chunks with
  | nil =>
    intro w s data h he
    exact ⟨data, by simpa [Writer.writeChunks] using h, by simp, by simp,
      by simp [Writer.writeChunks, he], rfl⟩
  | cons c cs ih =>
    intro w s data h he
    obtain ⟨k1, k2⟩ := Writer.Write_inv c h
    have k3 := Writer.Write_err w s c
    rw [Writer.writeChunks]
    rcases hW : w.Write s c with ⟨w1, s1, n, e⟩
    rw [hW] at k1 k2 k3
    simp only at k1 k2 k3
    cases e with
    | some err =>
      simp only
      refine ⟨data ++ c, k1, ?_, ?_, k3, k2⟩
      · simp only [List.flatten_cons, ← List.append_assoc]
        exact List.prefix_append _ _
      · intro hn; cases hn
    | none =>
      simp only
      obtain ⟨data1, j1, j2, j3, j4, j5⟩ := ih w1 s1 (data ++ c) k1 k3.symm
      refine ⟨data1, j1, ?_, ?_, j4, by rw [j5, k2]⟩
      · simpa [List.flatten_cons, List.append_assoc] using j2
      · intro hn
        simpa [List.flatten_cons, List.append_assoc] using j3 hn

/-- What `sendTransaction` leaves on a fresh stream: only `Write` calls, whose
payloads together are an initial part of the encoded record; when the stream
accepts writes they are the whole encoded record, it is what was sent, and the
error returned is the encoder's. -/
theorem sendTransaction_fresh (codec : RecordCodec) (s : Stream) (hlog : s.log = [])
    (hsent : s.sent = []) (sender receiver : GoString) (amount : Float64) :
    (∀ op ∈ ((WrapTransactionStream s).sendTransaction codec sender receiver amount).1.stream.log,
      ∃ q, op = StreamOp.write q) ∧
    (writes ((WrapTransactionStream s).sendTransaction codec sender receiver amount).1.stream.log).flatten
      <+: (codec.encode ⟨sender, receiver, amount⟩).1.flatten ∧
    (s.writeErr = none →
      ((WrapTransactionStream s).sendTransaction codec sender receiver amount).1.stream.sent
          = (codec.encode ⟨sender, receiver, amount⟩).1.flatten ∧
      (writes ((WrapTransactionStream s).sendTransaction codec sender receiver amount).1.stream.log).flatten
          = (codec.encode ⟨sender, receiver, amount⟩).1.flatten ∧
      ((WrapTransactionStream s).sendTransaction codec sender receiver amount).2
          = (codec.encode ⟨sender, receiver, amount⟩).2) := by
  have h0 : Writer.LoopInv bufio_NewWriter s [] [] := by
    constructor
    · intro op hop; rw [hlog] at hop; cases hop
    · rw [hsent, hlog]; simp [writes]
    · intro _; rw [hlog]; simp [writes, bufio_NewWriter]
    · rw [hlog]; simp [writes]
    · intro _; rfl
  obtain ⟨data1, j1, j2, j3, j4, j5⟩ :=
    Writer.writeChunks_inv (codec.encode ⟨sender, receiver, amount⟩).1 bufio_NewWriter s [] h0 rfl
  simp only [List.nil_append] at j2 j3
  dsimp only [TransactionStream.sendTransaction, TransactionStream.Encode, WrapTransactionStream]
  rcases hC : Writer.writeChunks (codec.encode ⟨sender, receiver, amount⟩).1 bufio_NewWriter s
    with ⟨w1, s1, e⟩
  rw [hC] at j1 j3 j4 j5
  simp only at j1 j3 j4 j5
  have f1 := Writer.LoopInv.flush j1
  have f2 := Writer.Flush_writeErr w1 s1
  have f3 := Writer.Flush_buf w1 s1
  rcases hF : w1.Flush s1 with ⟨w2, s2, e2⟩
  rw [hF] at f1 f2 f3
  simp only at f1 f2 f3
  have key : (∀ op ∈ s2.log, ∃ q, op = StreamOp.write q) ∧
      (writes s2.log).flatten <+: (codec.encode ⟨sender, receiver, amount⟩).1.flatten ∧
      (s.writeErr = none →
        s2.sent = (codec.encode ⟨sender, receiver, amount⟩).1.flatten ∧
        (writes s2.log).flatten = (codec.encode ⟨sender, receiver, amount⟩).1.flatten ∧
        e = none) := by
    refine ⟨f1.onlyWrites, List.IsPrefix.trans f1.attempted j2, ?_⟩
    intro hw
    have hw1 : s1.writeErr = none := by rw [j5]; exact hw
    have hw2 : s2.writeErr = none := by rw [f2]; exact hw1
    have he1 : w1.err = none := j1.noErr hw1
    have he2 : w2.err = none := f1.noErr hw2
    have he : e = none := by rw [j4]; exact he1
    have hd := j3 he
    have hp := f1.pending he2
    rw [f3 he2, hd] at hp
    simp only [List.append_nil] at hp
    refine ⟨?_, hp, he⟩
    rw [f1.sentEq, hw2]
    simpa using hp
  obtain ⟨a1, a2, a3⟩ := key
  cases e with
  | some err =>
    simp only [hF]
    refine ⟨a1, a2, ?_⟩
    intro hw
    have := (a3 hw).2.2
    cases this
  | none =>
    simp only [hF]
    exact ⟨a1, a2, fun hw => ⟨(a3 hw).1, (a3 hw).2.1, trivial⟩⟩

theorem Writer.writeLoop_of_not_cond (fuel : Nat) (w : Writer) (s : Stream) (p : List Byte)
    (nn : Nat) (h : ¬ Writer.loopCond w p) : Writer.writeLoop fuel w s p nn = (w, s, p, nn) := by
  cases fuel with
  | zero => rfl
  | succ fuel =>
    rw [Writer.writeLoop]
    unfold Writer.loopCond at h
    rw [if_neg h]

theorem Writer.writeLoop_exits_of_empty (fuel : Nat) (w : Writer) (s : Stream) (p : List Byte)
    (nn : Nat) (hb : w.buf = []) :
    ¬ Writer.loopCond (Writer.writeLoop (fuel + 1) w s p nn).1
        (Writer.writeLoop (fuel + 1) w s p nn).2.2.1 := by
  by_cases hc : Writer.loopCond w p
  · rw [Writer.writeLoop]
    have hc1 : p.length > w.Available ∧ w.err = none := hc
    have hB : w.Buffered = 0 := by simp [Writer.Buffered, hb]
    rw [if_pos hc1, if_pos hB, Stream.Write_eq]
    simp only
    cases hwe : s.writeErr with
    | none =>
      rw [Writer.writeLoop_of_not_cond]
      · simp [Writer.loopCond]
      · simp [Writer.loopCond]
    | some e =>
      rw [Writer.writeLoop_of_not_cond]
      · simp [Writer.loopCond]
      · simp [Writer.loopCond]
  · rw [Writer.writeLoop_of_not_cond _ _ _ _ _ hc]
    exact hc

/-- The fuel given to the loop of `Write` is enough: the loop stops because its
condition fails, never because the fuel ran out. -/
theorem Writer.writeLoop_exits (fuel : Nat) (w : Writer) (s : Stream) (p : List Byte) (nn : Nat) :
    ¬ Writer.loopCond (Writer.writeLoop (fuel + 2) w s p nn).1
        (Writer.writeLoop (fuel + 2) w s p nn).2.2.1 := by
  by_cases hc : Writer.loopCond w p
  · have hc1 : p.length > w.Available ∧ w.err = none := hc
    by_cases hB : w.Buffered = 0
    · exact Writer.writeLoop_exits_of_empty (fuel + 1) w s p nn (by simpa [Writer.Buffered] using hB)
    · rw [Writer.writeLoop, if_pos hc1, if_neg hB]
      simp only
      have hb := Writer.Flush_buf { w with buf := w.buf ++ p.take (min w.Available p.length) } s
      rcases hF : Writer.Flush { w with buf := w.buf ++ p.take (min w.Available p.length) } s
        with ⟨w1, s1, e1⟩
      rw [hF] at hb
      simp only at hb ⊢
      cases he : w1.err with
      | none => exact Writer.writeLoop_exits_of_empty fuel w1 s1 _ _ (hb he)
      | some e =>
        rw [Writer.writeLoop_of_not_cond]
        · simp [Writer.loopCond, he]
        · simp [Writer.loopCond, he]
  · rw [Writer.writeLoop_of_not_cond _ _ _ _ _ hc]
    exact hc

/-! ## Payment: the initiator -/

/-- The run of `Payment` once the destination is resolved, the payment stream
is open and the node has a listen address, spelled out by the outcome of the
ping stream. -/
theorem Payment_after_open (lib : Lib) (codec : RecordCodec) (net : Net) (node : PeerNode)
    (destination : GoString) (amount : Float64) (peerID : PeerID) (r : Remote)
    (addr0 : Multiaddr) (rest : List Multiaddr)
    (hres : (addAddressToPeerstore lib node destination).2 = .returned (peerID, none))
    (hdial : net.dial peerID paymentProtocol = .ok r)
    (haddr : node.addrs = addr0 :: rest) :
    node.Payment lib codec net destination amount =
      match net.dial peerID pingProtocol with
      | .error err =>
        { node := (addAddressToPeerstore lib node destination).1,
          opened := [(peerID, paymentProtocol), (peerID, pingProtocol)],
          stream := some ((WrapTransactionStream (paymentStream0 node peerID r)).sendTransaction
            codec (addr0.text ++ lit "/ipfs/" ++ lib.Pretty node.id) destination amount).1.stream,
          replyStream := none, stdout := [], result := .panicked err }
      | .ok rr =>
        match rr.endErr with
        | some err =>
          { node := (addAddressToPeerstore lib node destination).1,
            opened := [(peerID, paymentProtocol), (peerID, pingProtocol)],
            stream := some ((WrapTransactionStream (paymentStream0 node peerID r)).sendTransaction
              codec (addr0.text ++ lit "/ipfs/" ++ lib.Pretty node.id) destination amount).1.stream,
            replyStream := some (ioutil_ReadAll (pingStream0 node peerID rr)).1, stdout := [],
            result := .panicked err }
        | none =>
          { node := (addAddressToPeerstore lib node destination).1,
            opened := [(peerID, paymentProtocol), (peerID, pingProtocol)],
            stream := some ((WrapTransactionStream (paymentStream0 node peerID r)).sendTransaction
              codec (addr0.text ++ lit "/ipfs/" ++ lib.Pretty node.id) destination amount).1.stream.Close,
            replyStream := some (ioutil_ReadAll (pingStream0 node peerID rr)).1,
            stdout := [rr.inbound ++ lit "\n " ++ lib.String node.id ++ lit " => " ++
              lib.String peerID ++ lit "\n"],
            result := .returned () } := by
  have hid := addAddressToPeerstore_id lib node destination
  have had := addAddressToPeerstore_addrs lib node destination
  generalize hA : addAddressToPeerstore lib node destination = A at hres hid had
  obtain ⟨node1, out⟩ := A
  simp only at hres hid had
  subst hres
  rw [haddr] at had
  unfold PeerNode.Payment
  simp only [hA, PeerNode.NewStream, hdial, had, hid, paymentStream0, pingStream0]
  cases hp : net.dial peerID pingProtocol with
  | error err => rfl
  | ok rr =>
    simp only [ioutil_ReadAll]
    cases he : rr.endErr with
    | some err => rfl
    | none => rfl

/-- The framing of `sendTransaction` and `decodeTransaction` adds no loss to the
codec.  Let `sendTransaction(sender, receiver, amount)` run on a fresh stream
that accepts writes, and let `decodeTransaction` run on a stream whose inbound
content is exactly the bytes that call sent.  If the codec encodes the record
without error and decodes its own output back to the record, then so do the
two methods.  Whether the JSON multicodec does so is a fact of that library. -/
theorem framing_adds_no_loss (codec : RecordCodec) (sender receiver : GoString)
    (amount : Float64) (s r : Stream)
    (hlog : s.log = []) (hsent : s.sent = []) (hw : s.writeErr = none)
    (henc : (codec.encode ⟨sender, receiver, amount⟩).2 = none)
    (hdec : (codec.decode (codec.encode ⟨sender, receiver, amount⟩).1.flatten r.endErr).1 =
      .ok ⟨sender, receiver, amount⟩)
    (hin : r.inbound =
      ((WrapTransactionStream s).sendTransaction codec sender receiver amount).1.stream.sent) :
    ((WrapTransactionStream s).sendTransaction codec sender receiver amount).2 = none ∧
    ((WrapTransactionStream r).decodeTransaction codec).2 =
      (some { Sender := sender, Receiver := receiver, Amount := amount }, none) := by
  obtain ⟨_, _, h3⟩ := sendTransaction_fresh codec s hlog hsent sender receiver amount
  obtain ⟨k1, _, k3⟩ := h3 hw
  rw [k1] at hin
  refine ⟨by rw [k3, henc], ?_⟩
  rcases hd : codec.decode (codec.encode ⟨sender, receiver, amount⟩).1.flatten r.endErr
    with ⟨res, rest⟩
  rw [hd] at hdec
  simp only at hdec
  subst hdec
  simp only [TransactionStream.decodeTransaction, TransactionStream.Decode,
    WrapTransactionStream, hin, hd]

/-- The framing lemma on the stand-in codec, for the record A, B, 12.5 and for the amount
0.30000000000000004. -/
theorem framing_adds_no_loss_example :
    ((WrapTransactionStream demoOutbound).sendTransaction demoCodec (lit "A") (lit "B")
        f64_12_5).2 = none ∧
    ((WrapTransactionStream (demoDelivering
        ((WrapTransactionStream demoOutbound).sendTransaction demoCodec (lit "A") (lit "B")
          f64_12_5).1.stream.sent)).decodeTransaction demoCodec).2 =
      (some { Sender := lit "A", Receiver := lit "B", Amount := f64_12_5 }, none) ∧
    ((WrapTransactionStream (demoDelivering
        ((WrapTransactionStream demoOutbound).sendTransaction demoCodec (lit "A") (lit "B")
          f64_0_1_plus_0_2).1.stream.sent)).decodeTransaction demoCodec).2 =
      (some { Sender := lit "A", Receiver := lit "B", Amount := f64_0_1_plus_0_2 }, none) :=
  ⟨(framing_adds_no_loss demoCodec (lit "A") (lit "B") f64_12_5 demoOutbound
      (demoDelivering _) rfl rfl rfl rfl rfl rfl).1,
   (framing_adds_no_loss demoCodec (lit "A") (lit "B") f64_12_5 demoOutbound
      (demoDelivering _) rfl rfl rfl rfl rfl rfl).2,
   (framing_adds_no_loss demoCodec (lit "A") (lit "B") f64_0_1_plus_0_2 demoOutbound
      (demoDelivering _) rfl rfl rfl rfl rfl rfl).2⟩

/-- C2 fails on the code: when the ping stream cannot be opened, and when
reading it fails, `Payment` panics and the payment stream it opened has no
`Close` call; it is closed when the call completes normally. -/
theorem payment_stream_not_closed_on_ack_failure :
    ((demoNode.Payment demoLib demoCodec netPingRefused demoDestination f64_12_5).result =
        .panicked ⟨"protocol not supported"⟩ ∧
      ∃ s, (demoNode.Payment demoLib demoCodec netPingRefused demoDestination f64_12_5).stream
          = some s ∧ StreamOp.close ∉ s.log) ∧
    ((demoNode.Payment demoLib demoCodec netPingReset demoDestination f64_12_5).result =
        .panicked ⟨"stream reset"⟩ ∧
      ∃ s, (demoNode.Payment demoLib demoCodec netPingReset demoDestination f64_12_5).stream
          = some s ∧ StreamOp.close ∉ s.log) ∧
    ((demoNode.Payment demoLib demoCodec demoNet demoDestination f64_12_5).result =
        .returned () ∧
      ∃ s, (demoNode.Payment demoLib demoCodec demoNet demoDestination f64_12_5).stream
          = some s ∧ StreamOp.close ∈ s.log) := by
  refine ⟨⟨by decide, _, rfl, by decide⟩, ⟨by decide, _, rfl, by decide⟩,
    ⟨by decide, _, rfl, by decide⟩⟩

/-- C7, as stated, fails: a payment of NaN, which the shell accepts as an
amount, gets past opening the payment stream, and the encoder rejects the
record after writing the multicodec header.  The header is all that is sent:
no record is encoded onto the stream. -/
theorem payment_of_nan_encodes_no_record :
    ∃ s, (demoNode.Payment demoLib demoCodec demoNet demoDestination f64_NaN).stream = some s ∧
      s.sent = jsonHeader ∧
      ¬ demoCodec.Encodes
        { Sender := lit "/ip4/127.0.0.1/tcp/101" ++ lit "/ipfs/" ++ demoLib.Pretty demoNode.id,
          Receiver := demoDestination, Amount := f64_NaN } s.sent := by
  refine ⟨_, rfl, by decide, ?_⟩
  intro h
  exact absurd h.1 (by decide)

/-- C7, amended: in every `Payment` call that gets past opening the payment
stream, on a node with a listen address, the payment stream sees only `Write`
calls and, on the normal path, the final `Close`: it is never read and never
reset.  The bytes handed to it are an initial part of what one `Encode` call
writes for the record whose sender is the first listen address followed by
"/ipfs/" and the local peer ID, whose receiver is the destination as passed
and whose amount is the amount passed; when the stream accepts writes they
are all of it, and nothing else is sent.  When moreover the encoder accepts
that record, what is sent is exactly that one encoded record. -/
theorem payment_encodes_one_record (lib : Lib) (codec : RecordCodec) (net : Net)
    (node : PeerNode) (destination : GoString) (amount : Float64) (peerID : PeerID)
    (r : Remote) (addr0 : Multiaddr) (rest : List Multiaddr)
    (hres : (addAddressToPeerstore lib node destination).2 = .returned (peerID, none))
    (hdial : net.dial peerID paymentProtocol = .ok r)
    (haddr : node.addrs = addr0 :: rest) :
    ∃ s, (node.Payment lib codec net destination amount).stream = some s ∧
      (∀ op ∈ s.log, op ≠ StreamOp.read ∧ op ≠ StreamOp.reset) ∧
      (writes s.log).flatten <+:
        (codec.encode { Sender := addr0.text ++ lit "/ipfs/" ++ lib.Pretty node.id,
                        Receiver := destination, Amount := amount }).1.flatten ∧
      (r.writeErr = none →
        s.sent = (codec.encode { Sender := addr0.text ++ lit "/ipfs/" ++ lib.Pretty node.id,
                                 Receiver := destination, Amount := amount }).1.flatten ∧
        (writes s.log).flatten =
          (codec.encode { Sender := addr0.text ++ lit "/ipfs/" ++ lib.Pretty node.id,
                          Receiver := destination, Amount := amount }).1.flatten) ∧
      (r.writeErr = none →
        (codec.encode { Sender := addr0.text ++ lit "/ipfs/" ++ lib.Pretty node.id,
                        Receiver := destination, Amount := amount }).2 = none →
        codec.Encodes { Sender := addr0.text ++ lit "/ipfs/" ++ lib.Pretty node.id,
                        Receiver := destination, Amount := amount } s.sent) := by
  have hrun := Payment_after_open lib codec net node destination amount peerID r addr0 rest
    hres hdial haddr
  obtain ⟨k1, k2, k3⟩ := sendTransaction_fresh codec (paymentStream0 node peerID r) rfl rfl
    (addr0.text ++ lit "/ipfs/" ++ lib.Pretty node.id) destination amount
  have k1r : ∀ op ∈ ((WrapTransactionStream (paymentStream0 node peerID r)).sendTransaction codec
      (addr0.text ++ lit "/ipfs/" ++ lib.Pretty node.id) destination amount).1.stream.log,
      op ≠ StreamOp.read ∧ op ≠ StreamOp.reset := by
    intro op hop
    obtain ⟨q, hq⟩ := k1 op hop
    subst hq
    exact ⟨by simp, by simp⟩
  have k3r : r.writeErr = none → _ := fun h => k3 h
  rw [hrun]
  cases hp : net.dial peerID pingProtocol with
  | error err =>
    exact ⟨_, rfl, k1r, k2, fun h => ⟨(k3r h).1, (k3r h).2.1⟩, fun h he => ⟨he, (k3r h).1⟩⟩
  | ok rr =>
    simp only
    cases he : rr.endErr with
    | some err =>
      exact ⟨_, rfl, k1r, k2, fun h => ⟨(k3r h).1, (k3r h).2.1⟩, fun h he => ⟨he, (k3r h).1⟩⟩
    | none =>
      simp only
      refine ⟨_, rfl, ?_, ?_, ?_, ?_⟩
      · intro op hop
        simp only [Stream.Close, List.mem_append, List.mem_singleton] at hop
        rcases hop with hop | hop
        · exact k1r op hop
        · subst hop; exact ⟨by simp, by simp⟩
      · simpa [Stream.Close, writes_append, writes] using k2
      · intro h
        refine ⟨by simpa [Stream.Close] using (k3r h).1, ?_⟩
        simpa [Stream.Close, writes_append, writes] using (k3r h).2.1
      · intro h he
        exact ⟨he, by simpa [Stream.Close] using (k3r h).1⟩

/-- The amended C7 for a payment of 12.5 by the demo node. -/
theorem payment_encodes_one_record_witness :
    (addAddressToPeerstore demoLib demoNode demoDestination).2
        = .returned (⟨lit "QmRemotePeer"⟩, none) ∧
    demoNode.addrs = [⟨lit "/ip4/127.0.0.1/tcp/101"⟩] ∧
    (demoCodec.encode
      { Sender := lit "/ip4/127.0.0.1/tcp/101" ++ lit "/ipfs/" ++ demoLib.Pretty demoNode.id,
        Receiver := demoDestination, Amount := f64_12_5 }).2 = none ∧
    ∃ s, (demoNode.Payment demoLib demoCodec demoNet demoDestination f64_12_5).stream = some s ∧
      (∀ op ∈ s.log, op ≠ StreamOp.read ∧ op ≠ StreamOp.reset) ∧
      demoCodec.Encodes
        { Sender := lit "/ip4/127.0.0.1/tcp/101" ++ lit "/ipfs/" ++ demoLib.Pretty demoNode.id,
          Receiver := demoDestination, Amount := f64_12_5 } s.sent := by
  refine ⟨by decide, rfl, by decide, ?_⟩
  obtain ⟨s, h1, h2, _, _, h5⟩ :=
    payment_encodes_one_record demoLib demoCodec demoNet demoNode demoDestination f64_12_5
      ⟨lit "QmRemotePeer"⟩ ⟨[], none, none⟩ ⟨lit "/ip4/127.0.0.1/tcp/101"⟩ [] (by decide) rfl rfl
  exact ⟨s, h1, h2, h5 rfl (by decide)⟩

/-- C8: payment independence from the ack.  Take two `Payment` calls from the
same node to the same destination, with any two codecs, any two payment
streams and any two amounts (so with any outcome of writing the record,
`sendTransaction` returning nil or an error), on networks that treat the ping
protocol alike.  Both calls open a second stream to the same peer on
"/ping/1.0.0" right after the write; when it opens they read it to the end;
the ping stream, the reported text and the result of the two calls are the
same; and on the payment stream both calls make, after the calls of
`sendTransaction`, the same further calls: one `Close` when the call returns
normally, none otherwise, with nothing more sent. -/
theorem payment_ack_independent_of_write (lib : Lib) (codec1 codec2 : RecordCodec)
    (net1 net2 : Net) (node : PeerNode) (destination : GoString) (amount1 amount2 : Float64)
    (peerID : PeerID) (r1 r2 : Remote) (addr0 : Multiaddr) (rest : List Multiaddr)
    (hres : (addAddressToPeerstore lib node destination).2 = .returned (peerID, none))
    (hdial1 : net1.dial peerID paymentProtocol = .ok r1)
    (hdial2 : net2.dial peerID paymentProtocol = .ok r2)
    (hping : net1.dial peerID pingProtocol = net2.dial peerID pingProtocol)
    (haddr : node.addrs = addr0 :: rest) :
    (node.Payment lib codec1 net1 destination amount1).opened =
      [(peerID, paymentProtocol), (peerID, pingProtocol)] ∧
    (node.Payment lib codec2 net2 destination amount2).opened =
      [(peerID, paymentProtocol), (peerID, pingProtocol)] ∧
    (node.Payment lib codec2 net2 destination amount2).replyStream =
      (node.Payment lib codec1 net1 destination amount1).replyStream ∧
    (node.Payment lib codec2 net2 destination amount2).stdout =
      (node.Payment lib codec1 net1 destination amount1).stdout ∧
    (node.Payment lib codec2 net2 destination amount2).result =
      (node.Payment lib codec1 net1 destination amount1).result ∧
    (∀ rr, net1.dial peerID pingProtocol = .ok rr →
      ∃ rs, (node.Payment lib codec1 net1 destination amount1).replyStream = some rs ∧
        rs.protocol = pingProtocol ∧ rs.remotePeer = peerID ∧
        rs.log = [StreamOp.read] ∧ rs.inbound = []) ∧
    (∃ tail : List StreamOp,
      (((node.Payment lib codec1 net1 destination amount1).result = .returned () ∧
          tail = [StreamOp.close]) ∨
        ((node.Payment lib codec1 net1 destination amount1).result ≠ .returned () ∧
          tail = [])) ∧
      (node.Payment lib codec1 net1 destination amount1).stream.map (fun s => s.log) =
        some (((WrapTransactionStream (paymentStream0 node peerID r1)).sendTransaction codec1
          (addr0.text ++ lit "/ipfs/" ++ lib.Pretty node.id) destination amount1).1.stream.log
            ++ tail) ∧
      (node.Payment lib codec2 net2 destination amount2).stream.map (fun s => s.log) =
        some (((WrapTransactionStream (paymentStream0 node peerID r2)).sendTransaction codec2
          (addr0.text ++ lit "/ipfs/" ++ lib.Pretty node.id) destination amount2).1.stream.log
            ++ tail) ∧
      (node.Payment lib codec1 net1 destination amount1).stream.map (fun s => s.sent) =
        some ((WrapTransactionStream (paymentStream0 node peerID r1)).sendTransaction codec1
          (addr0.text ++ lit "/ipfs/" ++ lib.Pretty node.id) destination amount1).1.stream.sent ∧
      (node.Payment lib codec2 net2 destination amount2).stream.map (fun s => s.sent) =
        some ((WrapTransactionStream (paymentStream0 node peerID r2)).sendTransaction codec2
          (addr0.text ++ lit "/ipfs/" ++ lib.Pretty node.id) destination amount2).1.stream.sent) := by
  rw [Payment_after_open lib codec1 net1 node destination amount1 peerID r1 addr0 rest
      hres hdial1 haddr,
    Payment_after_open lib codec2 net2 node destination amount2 peerID r2 addr0 rest
      hres hdial2 haddr, ← hping]
  cases hp : net1.dial peerID pingProtocol with
  | error err =>
    refine ⟨rfl, rfl, rfl, rfl, rfl, ?_, [], Or.inr ⟨by simp, rfl⟩, by simp, by simp, rfl, rfl⟩
    intro rr h; cases h
  | ok rr =>
    simp only
    cases he : rr.endErr with
    | some err =>
      refine ⟨rfl, rfl, rfl, rfl, rfl, ?_, [], Or.inr ⟨by simp, rfl⟩, by simp, by simp, rfl, rfl⟩
      intro rr2 h
      simp only [Except.ok.injEq] at h
      subst h
      exact ⟨_, rfl, rfl, rfl, rfl, rfl⟩
    | none =>
      refine ⟨rfl, rfl, rfl, rfl, rfl, ?_, [StreamOp.close], Or.inl ⟨rfl, rfl⟩,
        by simp [Stream.Close], by simp [Stream.Close], by simp [Stream.Close],
        by simp [Stream.Close]⟩
      intro rr2 h
      simp only [Except.ok.injEq] at h
      subst h
      exact ⟨_, rfl, rfl, rfl, rfl, rfl⟩

/-- The two runs of C8: a payment of 12.5, for which `sendTransaction` returns
nil, and a payment of NaN, for which it returns the encoder's error.  The
result and the reported text are the same, and the payment stream of either
run ends with the one `Close`. -/
theorem payment_ack_independent_of_write_witness :
    (addAddressToPeerstore demoLib demoNode demoDestination).2
        = .returned (⟨lit "QmRemotePeer"⟩, none) ∧
    ((WrapTransactionStream (paymentStream0 demoNode ⟨lit "QmRemotePeer"⟩ ⟨[], none, none⟩)).sendTransaction
        demoCodec (lit "/ip4/127.0.0.1/tcp/101" ++ lit "/ipfs/" ++ demoLib.Pretty demoNode.id)
        demoDestination f64_12_5).2 = none ∧
    ((WrapTransactionStream (paymentStream0 demoNode ⟨lit "QmRemotePeer"⟩ ⟨[], none, none⟩)).sendTransaction
        demoCodec (lit "/ip4/127.0.0.1/tcp/101" ++ lit "/ipfs/" ++ demoLib.Pretty demoNode.id)
        demoDestination f64_NaN).2 = some ⟨"json: unsupported value"⟩ ∧
    (demoNode.Payment demoLib demoCodec demoNet demoDestination f64_NaN).result =
      (demoNode.Payment demoLib demoCodec demoNet demoDestination f64_12_5).result ∧
    (demoNode.Payment demoLib demoCodec demoNet demoDestination f64_NaN).stdout =
      (demoNode.Payment demoLib demoCodec demoNet demoDestination f64_12_5).stdout ∧
    (demoNode.Payment demoLib demoCodec demoNet demoDestination f64_NaN).replyStream =
      (demoNode.Payment demoLib demoCodec demoNet demoDestination f64_12_5).replyStream :=
  ⟨by decide, by decide, by decide,
   (payment_ack_independent_of_write demoLib demoCodec demoCodec demoNet demoNet
      demoNode demoDestination f64_12_5 f64_NaN ⟨lit "QmRemotePeer"⟩ ⟨[], none, none⟩
      ⟨[], none, none⟩ ⟨lit "/ip4/127.0.0.1/tcp/101"⟩ [] (by decide) rfl rfl rfl rfl).2.2.2.2.1,
   (payment_ack_independent_of_write demoLib demoCodec demoCodec demoNet demoNet
      demoNode demoDestination f64_12_5 f64_NaN ⟨lit "QmRemotePeer"⟩ ⟨[], none, none⟩
      ⟨[], none, none⟩ ⟨lit "/ip4/127.0.0.1/tcp/101"⟩ [] (by decide) rfl rfl rfl rfl).2.2.2.1,
   (payment_ack_independent_of_write demoLib demoCodec demoCodec demoNet demoNet
      demoNode demoDestination f64_12_5 f64_NaN ⟨lit "QmRemotePeer"⟩ ⟨[], none, none⟩
      ⟨[], none, none⟩ ⟨lit "/ip4/127.0.0.1/tcp/101"⟩ [] (by decide) rfl rfl rfl rfl).2.2.1⟩

/-! ## The filesystem: basic facts -/

theorem Disk.get_erase_self (d : Disk) (p : String) : (d.erase p).get p = none := by
  induction d with
  | nil => rfl
  | cons e es ih =>
    unfold Disk.erase Disk.get at ih ⊢
    by_cases h : e.1 = p
    · simpa [List.filter, h] using ih
    · have h2 : (p == e.1) = false := by simpa using fun hh => h hh.symm
      simp only [List.filter, h, ne_eq, not_false_eq_true, decide_True]
      obtain ⟨k, v⟩ := e
      simp only at h2
      simpa [List.lookup, h2] using ih

theorem Disk.get_erase_ne (d : Disk) (p q : String) (hne : q ≠ p) :
    (d.erase p).get q = d.get q := by
  induction d with
  | nil => rfl
  | cons e es ih =>
    unfold Disk.erase Disk.get at ih ⊢
    obtain ⟨k, v⟩ := e
    by_cases h : k = p
    · subst h
      have h2 : (q == k) = false := by simpa using hne
      simpa [List.filter, List.lookup, h2] using ih
    · simp only [List.filter, h, ne_eq, not_false_eq_true, decide_True]
      by_cases h3 : q = k
      · simp [List.lookup, h3]
      · have h2 : (q == k) = false := by simpa using h3
        simpa [List.lookup, h2] using ih

theorem Disk.get_put_self (d : Disk) (p : String) (n : FsNode) : (d.put p n).get p = some n := by
  simp [Disk.put, Disk.get, List.lookup]

theorem Disk.get_put_ne (d : Disk) (p q : String) (n : FsNode) (hne : q ≠ p) :
    (d.put p n).get q = d.get q := by
  have h2 : (q == p) = false := by simpa using hne
  have := Disk.get_erase_ne d p q hne
  unfold Disk.get at this ⊢
  simpa [Disk.put, List.lookup, h2] using this

theorem Disk.get_erase_of_none (d : Disk) (p q : String) (h : d.get q = none) :
    (d.erase p).get q = none := by
  by_cases hq : q = p
  · subst hq; exact Disk.get_erase_self d q
  · rw [Disk.get_erase_ne d p q hq]; exact h

/-- Removing a path that holds no directory leaves nothing there. -/
theorem os_Remove_gone (d : Disk) (p : String) (h : d.get p ≠ some FsNode.dir) :
    (os_Remove d p).1.get p = none := by
  unfold os_Remove
  cases hg : d.get p with
  | none => simpa using hg
  | some n =>
    cases n with
    | file c => simpa using Disk.get_erase_self d p
    | dir => exact absurd hg h

/-- Removing some path never brings back another one. -/
theorem os_Remove_keeps_none (d : Disk) (p q : String) (h : d.get q = none) :
    (os_Remove d p).1.get q = none := by
  unfold os_Remove
  cases hg : d.get p with
  | none => simpa using h
  | some n =>
    cases n with
    | file c => simpa using Disk.get_erase_of_none d p q h
    | dir =>
      by_cases hc : d.hasChildren p = true
      · simpa [hc] using h
      · simpa [hc] using Disk.get_erase_of_none d p q h

theorem Disk.apply_keeps_file (d : Disk) (w : FsWrite) (p : String)
    (h : ∃ c, d.get p = some (FsNode.file c)) :
    ∃ c, (d.apply w).1.get p = some (FsNode.file c) := by
  obtain ⟨c, hc⟩ := h
  cases w with
  | mkdir q =>
    unfold Disk.apply
    by_cases hu : d.underFile q = true
    · simpa [hu] using ⟨c, hc⟩
    · simp only [hu]
      cases hg : d.get q with
      | none =>
        have hne : p ≠ q := by
          intro e; subst e; rw [hc] at hg; cases hg
        exact ⟨c, by simpa [Disk.get_put_ne d q p _ hne] using hc⟩
      | some n =>
        cases n with
        | file c2 => exact ⟨c, by simpa using hc⟩
        | dir => exact ⟨c, by simpa using hc⟩
  | create q content =>
    unfold Disk.apply
    by_cases hu : d.underFile q = true
    · simpa [hu] using ⟨c, hc⟩
    · simp only [hu]
      by_cases hpq : p = q
      · subst hpq
        rw [hc]
        exact ⟨content, by simpa using Disk.get_put_self d p _⟩
      · cases hg : d.get q with
        | none => exact ⟨c, by simpa [Disk.get_put_ne d q p _ hpq] using hc⟩
        | some n =>
          cases n with
          | file c2 => exact ⟨c, by simpa [Disk.get_put_ne d q p _ hpq] using hc⟩
          | dir => exact ⟨c, by simpa using hc⟩

theorem Disk.applyAll_keeps_file (ws : List FsWrite) :
    ∀ (d : Disk) (p : String), (∃ c, d.get p = some (FsNode.file c)) →
      ∃ c, (Disk.applyAll ws d).1.get p = some (FsNode.file c) := by
  induction ws with
  | nil => intro d p h; simpa [Disk.applyAll] using h
  | cons w ws ih =>
    intro d p h
    have h1 := Disk.apply_keeps_file d w p h
    rw [Disk.applyAll]
    rcases hA : d.apply w with ⟨d1, e⟩
    rw [hA] at h1
    cases e with
    | some err => simpa using h1
    | none => simpa using ih d1 p h1

theorem archiver_Zip_Open_keeps_file (arch : Archiver) (d : Disk) (source destination p : String)
    (h : ∃ c, d.get p = some (FsNode.file c)) :
    ∃ c, (archiver_Zip_Open arch d source destination).1.get p = some (FsNode.file c) := by
  unfold archiver_Zip_Open
  cases hs : d.get source with
  | none => simpa using h
  | some n =>
    cases n with
    | dir => simpa using h
    | file archive =>
      have h1 := Disk.applyAll_keeps_file (arch.Open archive destination).1 d p h
      simp only
      rcases hA : Disk.applyAll (arch.Open archive destination).1 d with ⟨d1, e⟩
      rw [hA] at h1
      cases e <;> simpa using h1

theorem ioutil_WriteFile_fresh (o : WriteOutcome) (d : Disk) (p : String) (data : List Byte)
    (h : d.get p = none) :
    (ioutil_WriteFile o d p data).1.get p ≠ some FsNode.dir ∧
    ((ioutil_WriteFile o d p data).2 = none →
      ∃ c, (ioutil_WriteFile o d p data).1.get p = some (FsNode.file c)) := by
  unfold ioutil_WriteFile
  rw [h]
  cases o with
  | done => simp [Disk.get_put_self]
  | openFails e => simp [h]
  | writeFails n e => simp [Disk.get_put_self]

/-! ## Sync: the requester -/

/-- C11: when `data.zip` does not exist before the call, it does not exist
when `decodeTransfer` returns, whatever the blob decoder, the write of the
archive and the unpacker do: decode failure, failure writing the archive,
unpack failure and success alike. -/
theorem decodeTransfer_removes_archive (codec : BlobCodec) (arch : Archiver) (o : WriteOutcome)
    (ds : DataStream) (disk : Disk) (h : disk.get "data.zip" = none) :
    (ds.decodeTransfer codec arch o disk).2.1.get "data.zip" = none := by
  unfold DataStream.decodeTransfer
  rcases hD : ds.Decode codec with ⟨ds1, res⟩
  cases res with
  | error err => simpa using h
  | ok file =>
    obtain ⟨w1, w2⟩ := ioutil_WriteFile_fresh o disk "data.zip" file h
    simp only
    rcases hW : ioutil_WriteFile o disk "data.zip" file with ⟨disk1, e⟩
    rw [hW] at w1 w2
    simp only at w1 w2
    cases e with
    | some err => simpa using os_Remove_gone disk1 "data.zip" w1
    | none =>
      have hf := archiver_Zip_Open_keeps_file arch disk1 "data.zip" "" "data.zip" (w2 rfl)
      simp only
      rcases hO : archiver_Zip_Open arch disk1 "data.zip" "" with ⟨disk2, e2⟩
      rw [hO] at hf
      simp only at hf
      have hnd : disk2.get "data.zip" ≠ some FsNode.dir := by
        obtain ⟨c, hc⟩ := hf
        rw [hc]; simp
      have hgone := os_Remove_gone disk2 "data.zip" hnd
      cases e2 with
      | some err => simpa using os_Remove_keeps_none _ "data" "data.zip" hgone
      | none => simpa using hgone

/-- C11 on four runs: a blob that does not decode, a write that breaks off, an
archive that breaks off while being unpacked, and a sound archive. -/
theorem decodeTransfer_removes_archive_witness :
    Disk.get [] "data.zip" = none ∧
    ((WrapDataStream (demoSyncDelivering (lit "junk"))).decodeTransfer demoBlobCodec
      demoArchiver WriteOutcome.done []).2.1.get "data.zip" = none ∧
    ((WrapDataStream (demoSyncDelivering (demoBlobCodec.encode (lit "good")).1.flatten)).decodeTransfer
      demoBlobCodec demoArchiver (WriteOutcome.writeFails 2 ⟨"disk full"⟩) []).2.1.get "data.zip"
        = none ∧
    ((WrapDataStream (demoSyncDelivering
        (demoBlobCodec.encode (lit "truncated")).1.flatten)).decodeTransfer
      demoBlobCodec demoArchiver WriteOutcome.done []).2.1.get "data.zip" = none ∧
    ((WrapDataStream (demoSyncDelivering (demoBlobCodec.encode (lit "good")).1.flatten)).decodeTransfer
      demoBlobCodec demoArchiver WriteOutcome.done []).2.1.get "data.zip" = none :=
  ⟨rfl,
   decodeTransfer_removes_archive demoBlobCodec demoArchiver WriteOutcome.done _ [] rfl,
   decodeTransfer_removes_archive demoBlobCodec demoArchiver _ _ [] rfl,
   decodeTransfer_removes_archive demoBlobCodec demoArchiver WriteOutcome.done _ [] rfl,
   decodeTransfer_removes_archive demoBlobCodec demoArchiver WriteOutcome.done _ [] rfl⟩

/-- C12 fails on the code: when the unpacker has created `data/a.txt` and then
fails, `decodeTransfer` returns the error, `data.zip` is gone, and the
directory `data` and the file in it are still there: `os.Remove("data")`
removes only an empty directory. -/
theorem decodeTransfer_leaves_unpacked_directory :
    ((WrapDataStream (demoSyncDelivering
        (demoBlobCodec.encode (lit "truncated")).1.flatten)).decodeTransfer
      demoBlobCodec demoArchiver WriteOutcome.done []).2 =
      ([("data/a.txt", FsNode.file (lit "he")), ("data", FsNode.dir)],
        some ⟨"unexpected EOF"⟩) ∧
    (os_Remove [("data/a.txt", FsNode.file (lit "he")), ("data", FsNode.dir)] "data").2 =
      some ⟨"remove data: directory not empty"⟩ := by
  constructor <;> decide

/-! ## Sync: the responder -/

/-- Chunks handed to a new `bufio.Writer` over a fresh stream and then
flushed: the stream sees only `Write` calls; when it accepts writes, what was
sent is the chunks, whole and in order, and no write error is reported. -/
theorem Writer.chunks_flush_fresh (chunks : List (List Byte)) (s : Stream) (hlog : s.log = [])
    (hsent : s.sent = []) :
    (∀ op ∈ ((Writer.writeChunks chunks bufio_NewWriter s).1.Flush
        (Writer.writeChunks chunks bufio_NewWriter s).2.1).2.1.log, ∃ q, op = StreamOp.write q) ∧
    (s.writeErr = none →
      ((Writer.writeChunks chunks bufio_NewWriter s).1.Flush
        (Writer.writeChunks chunks bufio_NewWriter s).2.1).2.1.sent = chunks.flatten ∧
      (writes ((Writer.writeChunks chunks bufio_NewWriter s).1.Flush
        (Writer.writeChunks chunks bufio_NewWriter s).2.1).2.1.log).flatten = chunks.flatten ∧
      (Writer.writeChunks chunks bufio_NewWriter s).2.2 = none) ∧
    (s.writeErr ≠ none →
      ((Writer.writeChunks chunks bufio_NewWriter s).1.Flush
        (Writer.writeChunks chunks bufio_NewWriter s).2.1).2.1.sent = []) := by
  have h0 : Writer.LoopInv bufio_NewWriter s [] [] := by
    constructor
    · intro op hop; rw [hlog] at hop; cases hop
    · rw [hsent, hlog]; simp [writes]
    · intro _; rw [hlog]; simp [writes, bufio_NewWriter]
    · rw [hlog]; simp [writes]
    · intro _; rfl
  obtain ⟨data1, j1, j2, j3, j4, j5⟩ := Writer.writeChunks_inv chunks bufio_NewWriter s [] h0 rfl
  simp only [List.nil_append] at j2 j3
  rcases hC : Writer.writeChunks chunks bufio_NewWriter s with ⟨w1, s1, e⟩
  rw [hC] at j1 j3 j4 j5
  simp only at j1 j3 j4 j5 ⊢
  have f1 := Writer.LoopInv.flush j1
  have f2 := Writer.Flush_writeErr w1 s1
  have f3 := Writer.Flush_buf w1 s1
  rcases hF : w1.Flush s1 with ⟨w2, s2, e2⟩
  rw [hF] at f1 f2 f3
  simp only at f1 f2 f3 ⊢
  refine ⟨f1.onlyWrites, ?_, ?_⟩
  · intro hw
    have hw1 : s1.writeErr = none := by rw [j5]; exact hw
    have hw2 : s2.writeErr = none := by rw [f2]; exact hw1
    have he1 : w1.err = none := j1.noErr hw1
    have he2 : w2.err = none := f1.noErr hw2
    have he : e = none := by rw [j4]; exact he1
    have hp := f1.pending he2
    rw [f3 he2, j3 he] at hp
    simp only [List.append_nil] at hp
    refine ⟨?_, hp, he⟩
    rw [f1.sentEq, hw2]
    simpa using hp
  · intro hw
    have hw2 : s2.writeErr ≠ none := by rw [f2, j5]; exact hw
    rw [f1.sentEq]
    simp [hw2]

/-- When packing reports no error, the archive file holds the packed bytes, so
a read of it that succeeds returns them. -/
theorem archiver_Zip_Make_read (arch : Archiver) (readErr : Option Error) (disk : Disk)
    (zipPath : String) (filePaths : List String) (data : List Byte)
    (hpack : (archiver_Zip_Make arch disk zipPath filePaths).2 = none)
    (hread : ioutil_ReadFile readErr (archiver_Zip_Make arch disk zipPath filePaths).1 zipPath
      = .ok data) :
    arch.Make disk filePaths = PackOutcome.packed data := by
  unfold archiver_Zip_Make at hpack hread
  have key : ∀ archive, arch.Make disk filePaths = PackOutcome.packed archive →
      ioutil_ReadFile readErr (disk.put zipPath (FsNode.file archive)) zipPath = .ok data →
      archive = data := by
    intro archive _ hr
    unfold ioutil_ReadFile at hr
    rw [Disk.get_put_self] at hr
    cases readErr with
    | some e => simp at hr
    | none => simpa using hr
  cases hg : disk.get zipPath with
  | none =>
    simp only [hg] at hpack hread
    cases hm : arch.Make disk filePaths with
    | packed archive =>
      simp only [hm] at hread
      rw [key archive hm hread]
    | failed written err =>
      cases written <;> simp [hm] at hpack
  | some n =>
    cases n with
    | dir => simp [hg] at hpack
    | file c =>
      simp only [hg] at hpack hread
      cases hm : arch.Make disk filePaths with
      | packed archive =>
        simp only [hm] at hread
        rw [key archive hm hread]
      | failed written err =>
        cases written <;> simp [hm] at hpack

/-- C13: the sync responder on a freshly accepted stream.  When packing the
shared directory fails, nothing is written to the stream and the handler's
only call on it is `Reset`.  When packing, reading the archive back and
encoding succeed and the stream accepts writes, the bytes read back are the
packed archive, the stream carries exactly one encoding of them, and the
handler's calls on the stream are `Write` calls followed by one `Close`, with
no `Reset`. -/
theorem sync_responder_reset_or_blob (codec : BlobCodec) (arch : Archiver)
    (readErr : Option Error) (protocol : String) (localPeer remotePeer : PeerID) (r : Remote)
    (disk : Disk) :
    (∀ err, (archiver_Zip_Make arch disk "data.zip" ["data"]).2 = some err →
      (syncHandler codec arch readErr (inboundStream protocol localPeer remotePeer r) disk).stream.log
        = [StreamOp.reset] ∧
      (syncHandler codec arch readErr (inboundStream protocol localPeer remotePeer r) disk).stream.sent
        = [] ∧
      (syncHandler codec arch readErr (inboundStream protocol localPeer remotePeer r) disk).result
        = .returned ()) ∧
    (∀ data, (archiver_Zip_Make arch disk "data.zip" ["data"]).2 = none →
      ioutil_ReadFile readErr (archiver_Zip_Make arch disk "data.zip" ["data"]).1 "data.zip"
        = .ok data →
      (codec.encode data).2 = none →
      r.writeErr = none →
      arch.Make disk ["data"] = PackOutcome.packed data ∧
      (syncHandler codec arch readErr (inboundStream protocol localPeer remotePeer r) disk).stream.sent
        = (codec.encode data).1.flatten ∧
      (∃ ws, (syncHandler codec arch readErr
          (inboundStream protocol localPeer remotePeer r) disk).stream.log = ws ++ [StreamOp.close] ∧
        (∀ op ∈ ws, ∃ q, op = StreamOp.write q) ∧
        (writes ws).flatten = (codec.encode data).1.flatten) ∧
      (syncHandler codec arch readErr (inboundStream protocol localPeer remotePeer r) disk).result
        = .returned ()) := by
  constructor
  · intro err hpack
    rcases hM : archiver_Zip_Make arch disk "data.zip" ["data"] with ⟨disk1, e⟩
    rw [hM] at hpack
    simp only at hpack
    subst hpack
    simp [syncHandler, DataStream.encodeFile, hM, WrapDataStream, Stream.Reset, inboundStream]
  · intro data hpack hread henc hw
    have hmake := archiver_Zip_Make_read arch readErr disk "data.zip" ["data"] data hpack hread
    obtain ⟨c1, c2, _⟩ := Writer.chunks_flush_fresh (codec.encode data).1
      (inboundStream protocol localPeer remotePeer r) rfl rfl
    obtain ⟨c3, c4, c5⟩ := c2 hw
    rcases hM : archiver_Zip_Make arch disk "data.zip" ["data"] with ⟨disk1, e⟩
    rw [hM] at hpack hread
    simp only at hpack hread
    subst hpack
    rcases hC : Writer.writeChunks (codec.encode data).1 bufio_NewWriter
      (inboundStream protocol localPeer remotePeer r) with ⟨w1, s1, e1⟩
    rw [hC] at c1 c3 c4 c5
    simp only at c1 c3 c4 c5
    subst c5
    rcases hF : w1.Flush s1 with ⟨w2, s2, e2⟩
    rw [hF] at c1 c3 c4
    simp only at c1 c3 c4
    refine ⟨hmake, ?_, ?_, ?_⟩
    · simp [syncHandler, DataStream.encodeFile, hM, hread, WrapDataStream, DataStream.Encode, hC,
        hF, henc, Stream.Close, c3]
    · refine ⟨s2.log, ?_, c1, c4⟩
      simp [syncHandler, DataStream.encodeFile, hM, hread, WrapDataStream, DataStream.Encode, hC,
        hF, henc, Stream.Close]
    · simp [syncHandler, DataStream.encodeFile, hM, hread, WrapDataStream, DataStream.Encode, hC,
        hF, henc]

/-- C13 on two runs: a working directory without the shared directory, where
packing fails, and one with it. -/
theorem sync_responder_reset_or_blob_witness :
    (archiver_Zip_Make demoArchiver [] "data.zip" ["data"]).2
      = some ⟨"data: stat: no such file or directory"⟩ ∧
    (syncHandler demoBlobCodec demoArchiver none (demoSyncInbound none) []).stream.log
      = [StreamOp.reset] ∧
    (archiver_Zip_Make demoArchiver demoDisk "data.zip" ["data"]).2 = none ∧
    (syncHandler demoBlobCodec demoArchiver none (demoSyncInbound none) demoDisk).stream.sent
      = (demoBlobCodec.encode (lit "good")).1.flatten :=
  ⟨rfl,
   ((sync_responder_reset_or_blob demoBlobCodec demoArchiver none syncProtocol
      ⟨lit "QmRemotePeer"⟩ ⟨lit "QmLocalPeer"⟩ ⟨[], none, none⟩ []).1 _ rfl).1,
   rfl,
   ((sync_responder_reset_or_blob demoBlobCodec demoArchiver none syncProtocol
      ⟨lit "QmRemotePeer"⟩ ⟨lit "QmLocalPeer"⟩ ⟨[], none, none⟩ demoDisk).2 (lit "good")
      rfl rfl rfl rfl).2.1⟩

/-- C14 fails on the code: when packing fails after the archive file has been
created, and when reading the archive back fails, `data.zip` is still on the
disk after the handler has ended; it is removed when the read succeeds. -/
theorem sync_responder_leaves_archive :
    ((syncHandler demoBlobCodec demoArchiver none (demoSyncInbound none) []).result
        = .returned () ∧
      Disk.get (syncHandler demoBlobCodec demoArchiver none (demoSyncInbound none) []).disk
        "data.zip" = some (FsNode.file [])) ∧
    ((syncHandler demoBlobCodec demoArchiver (some ⟨"read data.zip: input/output error"⟩)
        (demoSyncInbound none) demoDisk).result
        = .panicked ⟨"read data.zip: input/output error"⟩ ∧
      Disk.get (syncHandler demoBlobCodec demoArchiver (some ⟨"read data.zip: input/output error"⟩)
        (demoSyncInbound none) demoDisk).disk "data.zip" = some (FsNode.file (lit "good"))) ∧
    (Disk.get (syncHandler demoBlobCodec demoArchiver none (demoSyncInbound none) demoDisk).disk
        "data.zip" = none ∧
      Disk.get (syncHandler demoBlobCodec demoArchiver none
        (demoSyncInbound (some ⟨"stream reset"⟩)) demoDisk).disk "data.zip" = none) := by
  refine ⟨⟨?_, ?_⟩, ⟨?_, ?_⟩, ⟨?_, ?_⟩⟩ <;> decide

/-! ## The handlers and panics -/

/-- C15 fails on the code: the ping handler panics when its write fails, and
the sync handler panics when the archive cannot be read back; in both runs the
handler does not return and the stream is neither reset nor closed. -/
theorem handlers_can_panic :
    ((Handler.run demoEnv Handler.ping
        (inboundStream pingProtocol ⟨lit "QmRemotePeer"⟩ ⟨lit "QmLocalPeer"⟩
          ⟨[], none, some ⟨"stream reset"⟩⟩) []).result = .panicked ⟨"stream reset"⟩ ∧
      (Handler.run demoEnv Handler.ping
        (inboundStream pingProtocol ⟨lit "QmRemotePeer"⟩ ⟨lit "QmLocalPeer"⟩
          ⟨[], none, some ⟨"stream reset"⟩⟩) []).stream.log =
        [StreamOp.write (lit "\nTransaction Successful \t Thank You!\n")]) ∧
    ((Handler.run { demoEnv with readErr := some ⟨"read data.zip: input/output error"⟩ }
        Handler.sync (demoSyncInbound none) demoDisk).result
        = .panicked ⟨"read data.zip: input/output error"⟩ ∧
      (Handler.run { demoEnv with readErr := some ⟨"read data.zip: input/output error"⟩ }
        Handler.sync (demoSyncInbound none) demoDisk).stream.log = []) := by
  refine ⟨⟨?_, ?_⟩, ⟨?_, ?_⟩⟩ <;> decide

/-- How each of the four handlers ends.  The heartbeat and payment handlers
return normally and their last call on the stream is `Reset` or `Close`.  The
ping handler returns normally, after `Close`, when its write is accepted, and
panics with the write error otherwise.  The sync handler panics exactly when
packing succeeded and reading the archive back fails; in every other case it
returns normally and its last call on the stream is `Reset` or `Close`. -/
theorem handlers_return_or_panic (env : ServeEnv) (stream : Stream) (disk : Disk) :
    ((Handler.run env Handler.heartbeat stream disk).result = .returned () ∧
      ((Handler.run env Handler.heartbeat stream disk).stream.log.getLast? = some StreamOp.reset ∨
       (Handler.run env Handler.heartbeat stream disk).stream.log.getLast? = some StreamOp.close)) ∧
    ((Handler.run env Handler.payment stream disk).result = .returned () ∧
      ((Handler.run env Handler.payment stream disk).stream.log.getLast? = some StreamOp.reset ∨
       (Handler.run env Handler.payment stream disk).stream.log.getLast? = some StreamOp.close)) ∧
    (stream.writeErr = none →
      (Handler.run env Handler.ping stream disk).result = .returned () ∧
      (Handler.run env Handler.ping stream disk).stream.log.getLast? = some StreamOp.close) ∧
    (∀ e, stream.writeErr = some e →
      (Handler.run env Handler.ping stream disk).result = .panicked e) ∧
    (∀ e, (archiver_Zip_Make env.arch disk "data.zip" ["data"]).2 = none →
      ioutil_ReadFile env.readErr (archiver_Zip_Make env.arch disk "data.zip" ["data"]).1
        "data.zip" = .error e →
      (Handler.run env Handler.sync stream disk).result = .panicked e) ∧
    (((archiver_Zip_Make env.arch disk "data.zip" ["data"]).2 ≠ none ∨
        ∃ data, ioutil_ReadFile env.readErr
          (archiver_Zip_Make env.arch disk "data.zip" ["data"]).1 "data.zip" = .ok data) →
      (Handler.run env Handler.sync stream disk).result = .returned () ∧
      ((Handler.run env Handler.sync stream disk).stream.log.getLast? = some StreamOp.reset ∨
       (Handler.run env Handler.sync stream disk).stream.log.getLast? = some StreamOp.close)) := by
  refine ⟨?_, ?_, ?_, ?_, ?_, ?_⟩
  · cases hs : splitAfter 10 stream.inbound with
    | none =>
      simp [Handler.run, heartbeatHandler, Reader.ReadString, bufio_NewReader, hs, Stream.Reset]
    | some pr =>
      obtain ⟨line, rest⟩ := pr
      cases hw : stream.writeErr <;>
        simp [Handler.run, heartbeatHandler, Reader.ReadString, bufio_NewReader, hs, Stream.Write,
          Stream.Close, hw]
  · rcases hd : env.recordCodec.decode stream.inbound stream.endErr with ⟨res, rest⟩
    cases res with
    | error e =>
      simp [Handler.run, paymentHandler, TransactionStream.decodeTransaction,
        TransactionStream.Decode, WrapTransactionStream, hd, Stream.Reset]
    | ok tx =>
      simp [Handler.run, paymentHandler, TransactionStream.decodeTransaction,
        TransactionStream.Decode, WrapTransactionStream, hd, Stream.Close]
  · intro hw
    simp [Handler.run, pingHandler, Stream.Write, hw, Stream.Close]
  · intro e hw
    simp [Handler.run, pingHandler, Stream.Write, hw]
  · intro e hpack hread
    rcases hM : archiver_Zip_Make env.arch disk "data.zip" ["data"] with ⟨disk1, e1⟩
    rw [hM] at hpack hread
    simp only at hpack hread
    subst hpack
    simp [Handler.run, syncHandler, DataStream.encodeFile, hM, hread]
  · intro h
    rcases hM : archiver_Zip_Make env.arch disk "data.zip" ["data"] with ⟨disk1, e1⟩
    rw [hM] at h
    simp only at h
    cases e1 with
    | some err =>
      simp [Handler.run, syncHandler, DataStream.encodeFile, hM, WrapDataStream, Stream.Reset]
    | none =>
      rcases h with h | ⟨data, hread⟩
      · exact absurd rfl h
      · rcases hE : (WrapDataStream stream).Encode env.blobCodec data with ⟨ds1, err⟩
        rcases hF : ds1.writer.Flush ds1.stream with ⟨w2, s2, e2⟩
        cases err with
        | some e =>
          simp [Handler.run, syncHandler, DataStream.encodeFile, hM, hread, hE, hF, Stream.Reset]
        | none =>
          simp [Handler.run, syncHandler, DataStream.encodeFile, hM, hread, hE, hF, Stream.Close]

/-- The ping handler on a stream that accepts its write. -/
theorem handlers_return_or_panic_example :
    (demoSyncInbound none).writeErr = none ∧
    (Handler.run demoEnv Handler.ping (demoSyncInbound none) []).result = .returned () ∧
    (Handler.run demoEnv Handler.ping (demoSyncInbound none) []).stream.log.getLast?
      = some StreamOp.close :=
  ⟨rfl, (handlers_return_or_panic demoEnv (demoSyncInbound none) []).2.2.1 rfl⟩

/-! ## Registering handlers -/

theorem lookup_filter_ne (l : List (String × Handler)) (p q : String) (hne : q ≠ p) :
    List.lookup q (l.filter (fun e => e.1 ≠ p)) = List.lookup q l := by
  induction l with
  | nil => rfl
  | cons e es ih =>
    obtain ⟨k, v⟩ := e
    by_cases h : k = p
    · subst h
      have h2 : (q == k) = false := by simpa using hne
      simpa [List.filter, List.lookup, h2] using ih
    · simp only [List.filter, h, ne_eq, not_false_eq_true, decide_True]
      by_cases h3 : q = k
      · simp [List.lookup, h3]
      · have h2 : (q == k) = false := by simpa using h3
        simpa [List.lookup, h2] using ih

/-- After `SetStreamHandler(pid, handler)` the protocol `pid` is bound to
`handler` and every other protocol is bound as before. -/
theorem PeerNode.handlerFor_SetStreamHandler (node : PeerNode) (pid : String) (handler : Handler)
    (q : String) :
    (node.SetStreamHandler pid handler).handlerFor q =
      if q = pid then some handler else node.handlerFor q := by
  unfold PeerNode.SetStreamHandler PeerNode.handlerFor
  by_cases h : q = pid
  · subst h; simp [List.lookup]
  · have h2 : (q == pid) = false := by simpa using h
    simp only [List.lookup, h2, if_neg h]
    exact lookup_filter_ne node.handlers pid q h

/-- C16: with the handlers of a node read as a map from protocol identifier to
handler, `HeartbeatProtocolMultiplexer` rebinds exactly "/heartbeat/1.0.0",
`PaymentProtocolMultiplexer` exactly "/ping/1.0.0" and "/payment/1.0.0", and
`SyncProtocolMultiplexer` exactly "/sync/1.0.0"; every other binding, and the
rest of the node, is as before; the four identifiers are pairwise distinct;
and a later `SetStreamHandler` for a key replaces the earlier binding, so that
calling a registration again leaves its bindings in place. -/
theorem multiplexers_rebind_their_keys (node : PeerNode) (q : String) :
    (node.HeartbeatProtocolMultiplexer.1.handlerFor q =
      if q = "/heartbeat/1.0.0" then some Handler.heartbeat else node.handlerFor q) ∧
    (node.PaymentProtocolMultiplexer.1.handlerFor q =
      if q = "/payment/1.0.0" then some Handler.payment
      else if q = "/ping/1.0.0" then some Handler.ping else node.handlerFor q) ∧
    (node.SyncProtocolMultiplexer.1.handlerFor q =
      if q = "/sync/1.0.0" then some Handler.sync else node.handlerFor q) ∧
    [heartbeatprotocol, paymentProtocol, pingProtocol, syncProtocol].Nodup ∧
    (∀ (h1 h2 : Handler),
      ((node.SetStreamHandler q h1).SetStreamHandler q h2).handlerFor q = some h2) ∧
    (node.HeartbeatProtocolMultiplexer.1.HeartbeatProtocolMultiplexer.1.handlerFor q =
      node.HeartbeatProtocolMultiplexer.1.handlerFor q) ∧
    (node.PaymentProtocolMultiplexer.1.PaymentProtocolMultiplexer.1.handlerFor q =
      node.PaymentProtocolMultiplexer.1.handlerFor q) ∧
    (node.SyncProtocolMultiplexer.1.SyncProtocolMultiplexer.1.handlerFor q =
      node.SyncProtocolMultiplexer.1.handlerFor q) ∧
    (node.HeartbeatProtocolMultiplexer.1.id = node.id ∧
      node.HeartbeatProtocolMultiplexer.1.addrs = node.addrs ∧
      node.HeartbeatProtocolMultiplexer.1.peerstore = node.peerstore) := by
  refine ⟨?_, ?_, ?_, by decide, ?_, ?_, ?_, ?_, ⟨rfl, rfl, rfl⟩⟩
  · simp [PeerNode.HeartbeatProtocolMultiplexer, PeerNode.handlerFor_SetStreamHandler,
      heartbeatprotocol]
  · simp [PeerNode.PaymentProtocolMultiplexer, PeerNode.handlerFor_SetStreamHandler,
      paymentProtocol, pingProtocol]
  · simp [PeerNode.SyncProtocolMultiplexer, PeerNode.handlerFor_SetStreamHandler, syncProtocol]
  · intro h1 h2
    simp [PeerNode.handlerFor_SetStreamHandler]
  · simp only [PeerNode.HeartbeatProtocolMultiplexer, PeerNode.handlerFor_SetStreamHandler]
    split <;> simp_all
  · simp only [PeerNode.PaymentProtocolMultiplexer, PeerNode.handlerFor_SetStreamHandler]
    split <;> simp_all
  · simp only [PeerNode.SyncProtocolMultiplexer, PeerNode.handlerFor_SetStreamHandler]
    split <;> simp_all

/-! ## Resolving an address -/

/-- C17: `addAddressToPeerstore` and the address book.  When it returns a
non-nil error, the node is unchanged, the peer ID returned is the zero value,
and the error is that of parsing the address, of looking up its /ipfs
component or of base58-decoding the peer ID.  When it returns a nil error, the
address book has grown by exactly one entry: for the decoded peer ID, which is
the one returned, with the address decapsulated by "/ipfs/<id>" and the
permanent TTL. -/
theorem addAddressToPeerstore_atomic (lib : Lib) (node : PeerNode) (address : GoString) :
    (∀ pid err, (addAddressToPeerstore lib node address).2 = .returned (pid, some err) →
      (addAddressToPeerstore lib node address).1 = node ∧ pid = ⟨[]⟩ ∧
      (lib.NewMultiaddr address = .error err ∨
        ∃ m, lib.NewMultiaddr address = .ok m ∧
          (lib.ValueForProtocol m P_IPFS = .error err ∨
            ∃ t, lib.ValueForProtocol m P_IPFS = .ok t ∧ lib.IDB58Decode t = .error err))) ∧
    (∀ pid, (addAddressToPeerstore lib node address).2 = .returned (pid, none) →
      ∃ m t target, lib.NewMultiaddr address = .ok m ∧
        lib.ValueForProtocol m P_IPFS = .ok t ∧
        lib.NewMultiaddr (lit "/ipfs/" ++ t) = .ok target ∧
        lib.IDB58Decode t = .ok pid ∧
        (addAddressToPeerstore lib node address).1 =
          { node with peerstore := node.peerstore ++
              [{ peer := pid, addr := lib.Decapsulate m target,
                 ttl := AddrTTL.PermanentAddrTTL }] }) := by
  cases h1 : lib.NewMultiaddr address with
  | error e1 =>
    have hv : addAddressToPeerstore lib node address = (node, .returned (⟨[]⟩, some e1)) := by
      simp [addAddressToPeerstore, h1]
    rw [hv]
    refine ⟨?_, ?_⟩
    · intro pid err h
      simp only [Outcome.returned.injEq, Prod.mk.injEq, Option.some.injEq] at h
      obtain ⟨hp, he⟩ := h
      subst hp he
      exact ⟨rfl, rfl, Or.inl rfl⟩
    · intro pid h; simp at h
  | ok m =>
    cases h2 : lib.ValueForProtocol m P_IPFS with
    | error e2 =>
      have hv : addAddressToPeerstore lib node address = (node, .returned (⟨[]⟩, some e2)) := by
        simp [addAddressToPeerstore, h1, h2]
      rw [hv]
      refine ⟨?_, ?_⟩
      · intro pid err h
        simp only [Outcome.returned.injEq, Prod.mk.injEq, Option.some.injEq] at h
        obtain ⟨hp, he⟩ := h
        subst hp he
        exact ⟨rfl, rfl, Or.inr ⟨m, rfl, Or.inl h2⟩⟩
      · intro pid h; simp at h
    | ok t =>
      cases h3 : lib.IDB58Decode t with
      | error e3 =>
        have hv : addAddressToPeerstore lib node address = (node, .returned (⟨[]⟩, some e3)) := by
          simp [addAddressToPeerstore, h1, h2, h3]
        rw [hv]
        refine ⟨?_, ?_⟩
        · intro pid err h
          simp only [Outcome.returned.injEq, Prod.mk.injEq, Option.some.injEq] at h
          obtain ⟨hp, he⟩ := h
          subst hp he
          exact ⟨rfl, rfl, Or.inr ⟨m, rfl, Or.inr ⟨t, h2, h3⟩⟩⟩
        · intro pid h; simp at h
      | ok decoded =>
        cases h4 : lib.NewMultiaddr (lit "/ipfs/" ++ t) with
        | error e4 =>
          have hv : addAddressToPeerstore lib node address = (node, .panicked nilDereference) := by
            simp [addAddressToPeerstore, h1, h2, h3, h4, Except.toOption]
          rw [hv]
          refine ⟨?_, ?_⟩
          · intro pid err h; simp at h
          · intro pid h; simp at h
        | ok target =>
          have hv : addAddressToPeerstore lib node address =
              ({ node with peerstore := node.peerstore ++
                  [{ peer := decoded, addr := lib.Decapsulate m target,
                     ttl := AddrTTL.PermanentAddrTTL }] }, .returned (decoded, none)) := by
            simp [addAddressToPeerstore, h1, h2, h3, h4, Except.toOption]
          rw [hv]
          refine ⟨?_, ?_⟩
          · intro pid err h; simp at h
          · intro pid h
            simp only [Outcome.returned.injEq, Prod.mk.injEq, and_true] at h
            subst h
            exact ⟨m, t, target, rfl, h2, h4, h3, rfl⟩

/-- C17 on two addresses: one that resolves and one without an /ipfs component. -/
theorem addAddressToPeerstore_atomic_witness :
    (addAddressToPeerstore demoLib demoNode (lit "/ip4/127.0.0.1/tcp/102")).2
      = .returned (⟨[]⟩, some ⟨"protocol not found in multiaddr"⟩) ∧
    (addAddressToPeerstore demoLib demoNode (lit "/ip4/127.0.0.1/tcp/102")).1 = demoNode ∧
    (addAddressToPeerstore demoLib demoNode demoDestination).2
      = .returned (⟨lit "QmRemotePeer"⟩, none) ∧
    (∃ m t target, demoLib.NewMultiaddr demoDestination = .ok m ∧
        demoLib.ValueForProtocol m P_IPFS = .ok t ∧
        demoLib.NewMultiaddr (lit "/ipfs/" ++ t) = .ok target ∧
        demoLib.IDB58Decode t = .ok ⟨lit "QmRemotePeer"⟩ ∧
        (addAddressToPeerstore demoLib demoNode demoDestination).1 =
          { demoNode with peerstore := demoNode.peerstore ++
              [{ peer := ⟨lit "QmRemotePeer"⟩, addr := demoLib.Decapsulate m target,
                 ttl := AddrTTL.PermanentAddrTTL }] }) :=
  ⟨by decide,
   ((addAddressToPeerstore_atomic demoLib demoNode (lit "/ip4/127.0.0.1/tcp/102")).1 ⟨[]⟩
      ⟨"protocol not found in multiaddr"⟩ (by decide)).1,
   by decide,
   (addAddressToPeerstore_atomic demoLib demoNode demoDestination).2 ⟨lit "QmRemotePeer"⟩
      (by decide)⟩

/-- C18: the two resolvers agree.  Provided the text of the /ipfs component of
a parsed address parses again as the address "/ipfs/<id>", for every address
`addAddressToPeerstore` returns exactly the peer ID and the error that
`IpfsAddressToPeerID` returns; on failure the peer ID is the zero value; and
the result is the same on every node. -/
theorem resolvers_agree (lib : Lib) (node : PeerNode) (address : GoString)
    (hre : ∀ m t, lib.NewMultiaddr address = .ok m → lib.ValueForProtocol m P_IPFS = .ok t →
      ∃ target, lib.NewMultiaddr (lit "/ipfs/" ++ t) = .ok target) :
    (addAddressToPeerstore lib node address).2 = .returned (IpfsAddressToPeerID lib address) ∧
    ((IpfsAddressToPeerID lib address).2 ≠ none → (IpfsAddressToPeerID lib address).1 = ⟨[]⟩) ∧
    (∀ node2 : PeerNode, (addAddressToPeerstore lib node2 address).2 =
      (addAddressToPeerstore lib node address).2) := by
  have key : ∀ n : PeerNode,
      (addAddressToPeerstore lib n address).2 = .returned (IpfsAddressToPeerID lib address) := by
    intro n
    cases h1 : lib.NewMultiaddr address with
    | error e1 => simp [addAddressToPeerstore, IpfsAddressToPeerID, h1]
    | ok m =>
      cases h2 : lib.ValueForProtocol m P_IPFS with
      | error e2 => simp [addAddressToPeerstore, IpfsAddressToPeerID, h1, h2]
      | ok t =>
        obtain ⟨target, h4⟩ := hre m t h1 h2
        cases h3 : lib.IDB58Decode t with
        | error e3 => simp [addAddressToPeerstore, IpfsAddressToPeerID, h1, h2, h3]
        | ok decoded =>
          simp [addAddressToPeerstore, IpfsAddressToPeerID, h1, h2, h3, h4, Except.toOption]
  refine ⟨key node, ?_, fun node2 => by rw [key node2, key node]⟩
  cases h1 : lib.NewMultiaddr address with
  | error e1 => simp [IpfsAddressToPeerID, h1]
  | ok m =>
    cases h2 : lib.ValueForProtocol m P_IPFS with
    | error e2 => simp [IpfsAddressToPeerID, h1, h2]
    | ok t =>
      cases h3 : lib.IDB58Decode t with
      | error e3 => simp [IpfsAddressToPeerID, h1, h2, h3]
      | ok decoded => simp [IpfsAddressToPeerID, h1, h2, h3]

/-- C18 on an address that resolves and on one that does not. -/
theorem resolvers_agree_witness :
    (addAddressToPeerstore demoLib demoNode demoDestination).2
      = .returned (IpfsAddressToPeerID demoLib demoDestination) ∧
    IpfsAddressToPeerID demoLib demoDestination = (⟨lit "QmRemotePeer"⟩, none) ∧
    (addAddressToPeerstore demoLib demoNode (lit "127.0.0.1")).2
      = .returned (IpfsAddressToPeerID demoLib (lit "127.0.0.1")) ∧
    IpfsAddressToPeerID demoLib (lit "127.0.0.1")
      = (⟨[]⟩, some ⟨"invalid multiaddr, must begin with /"⟩) :=
  ⟨(resolvers_agree demoLib demoNode demoDestination
      (fun _ t _ _ => ⟨⟨lit "/ipfs/" ++ t⟩, rfl⟩)).1,
   by decide,
   (resolvers_agree demoLib demoNode (lit "127.0.0.1")
      (fun _ t _ _ => ⟨⟨lit "/ipfs/" ++ t⟩, rfl⟩)).1,
   by decide⟩

end P2P
